import Mathlib

/-!
# Ray / shape intersection primitives of `shapes.hpp`

A shallow embedding of `src/shapes.hpp`.  The C++ `float`/`double` scalars are
idealised as the elements of an arbitrary linearly ordered field `F` (exact
arithmetic, no rounding, no NaN); the square root of `<cmath>` is a parameter
`sqrt : F → F` of every definition that calls it, and theorems that need it
assume `IsSqrt sqrt`, which constrains `sqrt` on non-negative arguments only.

The out-parameter `float& t` of the `intersect` methods is modelled by state
passing: `intersect ray t` returns the `bool` result together with the value
of `t` after the call.
-/

namespace RayTracing

/-! ## The vector library used by `shapes.hpp` -/

/-- Modelled from the spec: the type `vec3` comes from `transformations.hpp`,
which is not part of the sources; section 3 of the specification describes it
as "3 floating-point components; supports add, subtract, scalar-multiply, dot,
cross, length, normalize". -/
structure vec3 (F : Type) where
  x : F
  y : F
  z : F
deriving DecidableEq

section Defs

variable {F : Type} [LinearOrderedField F]

/-- Modelled from the spec: `vec3` addition (component-wise). -/
instance : Add (vec3 F) where
  add a b := ⟨a.x + b.x, a.y + b.y, a.z + b.z⟩

/-- Modelled from the spec: `vec3` subtraction (component-wise). -/
instance : Sub (vec3 F) where
  sub a b := ⟨a.x - b.x, a.y - b.y, a.z - b.z⟩

/-- Modelled from the spec: scalar-multiply `t * v`. -/
instance : HMul F (vec3 F) (vec3 F) where
  hMul t v := ⟨t * v.x, t * v.y, t * v.z⟩

/-- Modelled from the spec: scalar-multiply `v * t`. -/
instance : HMul (vec3 F) F (vec3 F) where
  hMul v t := ⟨v.x * t, v.y * t, v.z * t⟩

/-- Modelled from the spec: division of a vector by a scalar, `v / t`. -/
instance : HDiv (vec3 F) F (vec3 F) where
  hDiv v t := ⟨v.x / t, v.y / t, v.z / t⟩

/-- Modelled from the spec: the dot product of `vec3`. -/
def dot (a b : vec3 F) : F :=
  a.x * b.x + a.y * b.y + a.z * b.z

/-- Modelled from the spec: the cross product of `vec3`. -/
def cross (a b : vec3 F) : vec3 F :=
  ⟨a.y * b.z - a.z * b.y, a.z * b.x - a.x * b.z, a.x * b.y - a.y * b.x⟩

/-- Modelled from the spec: `vec3::length()`, the square root of the sum of the
squared components. -/
def vec3.length (sqrt : F → F) (v : vec3 F) : F :=
  sqrt (dot v v)

/-- Modelled from the spec: `unit_vector(v)`, the "normalize" operation of
`vec3`: the vector divided by its length. -/
def unit_vector (sqrt : F → F) (v : vec3 F) : vec3 F :=
  v / vec3.length sqrt v

/-- What the theorems assume of the square root: on a non-negative argument it
returns the non-negative number whose square is the argument.  Nothing is
assumed on negative arguments. -/
def IsSqrt (sqrt : F → F) : Prop :=
  ∀ x : F, 0 ≤ x → 0 ≤ sqrt x ∧ sqrt x * sqrt x = x

/-! ## `shapes.hpp` -/

/-- The constant `const float EPS = 1e-6f;`. -/
def EPS : F := 1 / 1000000

/-- The function `int signum(float value)`. -/
def signum (value : F) : Int :=
  if |value| < EPS then
    0
  else if value < 0 then
    -1
  else
    1

/-- The type `struct Ray`. -/
structure Ray (F : Type) where
  origin : vec3 F
  direction : vec3 F

/-- The method `Ray::point_at_parameter`. -/
def Ray.point_at_parameter (ray : Ray F) (t : F) : vec3 F :=
  ray.origin + t * ray.direction

/-- The type `struct Sphere : public Shape`; `color` is the field of `Shape`. -/
structure Sphere (F : Type) where
  color : vec3 F
  center : vec3 F
  radius : F

/-- The method `Sphere::intersect`.  The second component of the result is the
value of the out-parameter `t` after the call (`t` is left untouched by the
first `return false`, and holds `t0` at the second).  The tolerance test lets
through a slightly negative `r2 - d2` (0 < d2 - r2 < EPS): there the C `sqrt`
yields NaN and the call returns true with `t` NaN, which the field `F` cannot
represent; the model has whatever the parameter `sqrt` returns instead, so in
that window the value of `t` in the model is not the one of the code. -/
def Sphere.intersect (sqrt : F → F) (s : Sphere F) (ray : Ray F) (t : F) : Bool × F :=
  let v := s.center - ray.origin
  let tca := dot v ray.direction
  let d2 := dot v v - tca * tca
  let r2 := s.radius * s.radius
  if signum (d2 - r2) > 0 then
    (false, t)
  else
    let thc := sqrt (r2 - d2)
    let t0 := tca - thc
    let t1 := tca + thc
    if t0 < EPS then
      if t1 < EPS then
        (false, t0)
      else
        (true, t1)
    else
      (true, t0)

/-- The local variable `tca` of `Sphere::intersect`. -/
def Sphere.tca (s : Sphere F) (ray : Ray F) : F :=
  dot (s.center - ray.origin) ray.direction

/-- The local variable `d2` of `Sphere::intersect`. -/
def Sphere.d2 (s : Sphere F) (ray : Ray F) : F :=
  dot (s.center - ray.origin) (s.center - ray.origin) - s.tca ray * s.tca ray

/-- The local variable `r2` of `Sphere::intersect`. -/
def Sphere.r2 (s : Sphere F) : F :=
  s.radius * s.radius

/-- The type `struct Plane : public Shape`. -/
structure Plane (F : Type) where
  color : vec3 F
  pp : vec3 F
  normal : vec3 F

/-- The constructor `Plane::Plane` (named `new`, since `Plane.Plane` would shadow the
type inside its own namespace): the normal is stored normalised. -/
def Plane.new (sqrt : F → F) (color pp normal : vec3 F) : Plane F :=
  { color := color, pp := pp, normal := unit_vector sqrt normal }

/-- The method `Plane::intersect`. -/
def Plane.intersect (pl : Plane F) (ray : Ray F) (t : F) : Bool × F :=
  let aux := dot pl.normal ray.direction
  if |aux| < EPS then
    (false, t)
  else
    let t1 := dot pl.normal (pl.pp - ray.origin) / aux
    (decide (t1 > EPS), t1)

/-- The method `Plane::getNormal`. -/
def Plane.getNormal (pl : Plane F) (_point : vec3 F) : vec3 F :=
  pl.normal

/-- The type `struct Triangle : public Shape`. -/
structure Triangle (F : Type) where
  color : vec3 F
  plane : Plane F
  edgeVetorAB : vec3 F
  edgeVetorAC : vec3 F

/-- The constructor `Triangle::Triangle` (named `new` for the same reason as `Plane.new`). -/
def Triangle.new (sqrt : F → F) (color a b c : vec3 F) : Triangle F :=
  let u := b - a
  let v := c - a
  let projuv := v * (dot u v / dot v v)
  let projvu := u * (dot v u / dot u u)
  let edgeVetorAB := u - projuv
  let edgeVetorAB := edgeVetorAB / vec3.length sqrt edgeVetorAB
  let edgeVetorAC := v - projvu
  let edgeVetorAC := edgeVetorAC / vec3.length sqrt edgeVetorAC
  { color := color
    plane := Plane.new sqrt color a (cross (b - a) (c - a))
    edgeVetorAB := edgeVetorAB
    edgeVetorAC := edgeVetorAC }

/-- The method `Triangle::intersect`. -/
def Triangle.intersect (tr : Triangle F) (ray : Ray F) (t : F) : Bool × F :=
  let r := tr.plane.intersect ray t
  if !r.1 then
    (false, r.2)
  else
    let t := r.2
    let p := ray.point_at_parameter t
    let ap := p - tr.plane.pp
    let beta := dot ap tr.edgeVetorAB
    let gama := dot ap tr.edgeVetorAC
    let alpha := 1 - beta - gama
    if alpha < -EPS ∨ beta < -EPS ∨ gama < -EPS then
      (false, t)
    else
      (true, t)

/-- The type `struct Shape`, the base of the three shapes: it owns the colour. -/
structure Shape (F : Type) where
  color : vec3 F

/-- The method `Shape::applyMatrix`, the base implementation: it does nothing.  The type
`Matrix` of `transformations.hpp` is not part of the sources and is the parameter `M`. -/
def Shape.applyMatrix {M : Type} (sh : Shape F) (_matrix : M) : Shape F :=
  sh

/-- The method `Sphere::applyMatrix`: `center = matrix * center`.  The product of a `Matrix`
with a `vec3` belongs to `transformations.hpp`, which is not part of the sources, and is the
parameter `mul`. -/
def Sphere.applyMatrix {M : Type} (mul : M → vec3 F → vec3 F) (s : Sphere F) (matrix : M) :
    Sphere F :=
  { s with center := mul matrix s.center }

/-- The method `applyMatrix` of a `Plane`: `Plane` does not override it, so the call runs
`Shape::applyMatrix` on the `Shape` part of the plane. -/
def Plane.applyMatrix {M : Type} (pl : Plane F) (matrix : M) : Plane F :=
  { pl with color := (Shape.applyMatrix (⟨pl.color⟩ : Shape F) matrix).color }

/-- The method `applyMatrix` of a `Triangle`: `Triangle` does not override it, so the call
runs `Shape::applyMatrix` on the `Shape` part of the triangle. -/
def Triangle.applyMatrix {M : Type} (tr : Triangle F) (matrix : M) : Triangle F :=
  { tr with color := (Shape.applyMatrix (⟨tr.color⟩ : Shape F) matrix).color }

end Defs

/-! ## Basic facts about the vector operations -/

section Lemmas

variable {F : Type} [LinearOrderedField F]

@[simp] theorem vec3.add_x (a b : vec3 F) : (a + b).x = a.x + b.x := rfl
@[simp] theorem vec3.add_y (a b : vec3 F) : (a + b).y = a.y + b.y := rfl
@[simp] theorem vec3.add_z (a b : vec3 F) : (a + b).z = a.z + b.z := rfl
@[simp] theorem vec3.sub_x (a b : vec3 F) : (a - b).x = a.x - b.x := rfl
@[simp] theorem vec3.sub_y (a b : vec3 F) : (a - b).y = a.y - b.y := rfl
@[simp] theorem vec3.sub_z (a b : vec3 F) : (a - b).z = a.z - b.z := rfl
@[simp] theorem vec3.smul_x (t : F) (v : vec3 F) : (t * v).x = t * v.x := rfl
@[simp] theorem vec3.smul_y (t : F) (v : vec3 F) : (t * v).y = t * v.y := rfl
@[simp] theorem vec3.smul_z (t : F) (v : vec3 F) : (t * v).z = t * v.z := rfl
@[simp] theorem vec3.muls_x (v : vec3 F) (t : F) : (v * t).x = v.x * t := rfl
@[simp] theorem vec3.muls_y (v : vec3 F) (t : F) : (v * t).y = v.y * t := rfl
@[simp] theorem vec3.muls_z (v : vec3 F) (t : F) : (v * t).z = v.z * t := rfl
@[simp] theorem vec3.divs_x (v : vec3 F) (t : F) : (v / t).x = v.x / t := rfl
@[simp] theorem vec3.divs_y (v : vec3 F) (t : F) : (v / t).y = v.y / t := rfl
@[simp] theorem vec3.divs_z (v : vec3 F) (t : F) : (v / t).z = v.z / t := rfl

omit [LinearOrderedField F] in
theorem vec3.ext_iff3 (a b : vec3 F) : a = b ↔ a.x = b.x ∧ a.y = b.y ∧ a.z = b.z := by
  cases a; cases b; simp

theorem EPS_pos : (0 : F) < EPS := by
  unfold EPS; positivity

theorem dot_self_nonneg (v : vec3 F) : 0 ≤ dot v v := by
  unfold dot; nlinarith [mul_self_nonneg v.x, mul_self_nonneg v.y, mul_self_nonneg v.z]

/-- The real square root satisfies the assumption made of `sqrt`. -/
theorem isSqrt_real : IsSqrt Real.sqrt :=
  fun x hx => ⟨Real.sqrt_nonneg x, Real.mul_self_sqrt hx⟩

/-- Under `IsSqrt`, the square root of a square of a non-negative number. -/
theorem IsSqrt.sqrt_mul_self {sqrt : F → F} (h : IsSqrt sqrt) {x : F} (hx : 0 ≤ x) :
    sqrt (x * x) = x := by
  obtain ⟨h0, h1⟩ := h (x * x) (mul_self_nonneg x)
  nlinarith [mul_self_nonneg (sqrt (x * x) - x), mul_nonneg h0 hx]

/-- A hit reported by `Sphere.intersect` carries a parameter that is at least `EPS`. -/
theorem Sphere.intersect_hit_ge (sqrt : F → F) (s : Sphere F) (ray : Ray F) (t : F)
    (h : (s.intersect sqrt ray t).1 = true) : EPS ≤ (s.intersect sqrt ray t).2 := by
  unfold Sphere.intersect at h ⊢
  simp only at h ⊢
  split_ifs at h ⊢ with h1 h2 h3 <;> simp_all

/-- A hit reported by `Plane.intersect` carries a parameter greater than `EPS`. -/
theorem Plane.intersect_hit_gt (pl : Plane F) (ray : Ray F) (t : F)
    (h : (pl.intersect ray t).1 = true) : EPS < (pl.intersect ray t).2 := by
  unfold Plane.intersect at h ⊢
  simp only at h ⊢
  split_ifs at h ⊢ with h1
  simp_all

/-- A hit reported by `Triangle.intersect` is a hit of the underlying plane, with its `t`. -/
theorem Triangle.intersect_hit_plane (tr : Triangle F) (ray : Ray F) (t : F)
    (h : (tr.intersect ray t).1 = true) :
    (tr.plane.intersect ray t).1 = true ∧
      (tr.intersect ray t).2 = (tr.plane.intersect ray t).2 := by
  unfold Triangle.intersect at h ⊢
  simp only at h ⊢
  split_ifs at h ⊢ with h1 h2
  simp_all

/-- The test `signum(x) > 0` holds exactly when `x` is at least `EPS`. -/
theorem signum_pos_iff (x : F) : signum x > 0 ↔ EPS ≤ x := by
  have hE : (0 : F) < EPS := EPS_pos
  unfold signum
  split_ifs with h1 h2
  · have := (abs_lt.mp h1).2
    simp only [gt_iff_lt, lt_self_iff_false, false_iff, not_le]
    exact this
  · have h3 : ¬ ((-1 : Int) > 0) := by decide
    simp only [h3, false_iff, not_le]
    linarith
  · have h3 : 0 ≤ x := le_of_not_lt h2
    rw [abs_of_nonneg h3] at h1
    simp only [gt_iff_lt, zero_lt_one, true_iff]
    exact le_of_not_lt h1

/-- The body of `Sphere.intersect` in terms of `tca`, `d2` and `r2`. -/
theorem Sphere.intersect_eq (sqrt : F → F) (s : Sphere F) (ray : Ray F) (t : F) :
    s.intersect sqrt ray t =
      if EPS ≤ s.d2 ray - s.r2 then (false, t)
      else if s.tca ray - sqrt (s.r2 - s.d2 ray) < EPS then
        if s.tca ray + sqrt (s.r2 - s.d2 ray) < EPS then
          (false, s.tca ray - sqrt (s.r2 - s.d2 ray))
        else (true, s.tca ray + sqrt (s.r2 - s.d2 ray))
      else (true, s.tca ray - sqrt (s.r2 - s.d2 ray)) := by
  unfold Sphere.intersect
  simp only [signum_pos_iff]
  rfl

/-- For a direction of squared length 1, the squared distance from the sphere centre to the
point of the ray at parameter `u`. -/
theorem Sphere.dist_sq_point (s : Sphere F) (ray : Ray F) (u : F)
    (hd : dot ray.direction ray.direction = 1) :
    dot (ray.point_at_parameter u - s.center) (ray.point_at_parameter u - s.center)
      = (u - s.tca ray) * (u - s.tca ray) + s.d2 ray := by
  unfold Sphere.d2 Sphere.tca Ray.point_at_parameter
  unfold dot at hd ⊢
  simp only [vec3.add_x, vec3.add_y, vec3.add_z, vec3.sub_x, vec3.sub_y, vec3.sub_z,
    vec3.smul_x, vec3.smul_y, vec3.smul_z]
  linear_combination (u * u) * hd

/-- A vector of length 1 has squared length 1. -/
theorem IsSqrt.dot_self_of_length_eq_one {sqrt : F → F} (h : IsSqrt sqrt) {v : vec3 F}
    (hv : vec3.length sqrt v = 1) : dot v v = 1 := by
  obtain ⟨_, h1⟩ := h (dot v v) (dot_self_nonneg v)
  unfold vec3.length at hv
  rw [hv] at h1
  linarith

/-- A vector of length `r` has squared length `r * r`. -/
theorem IsSqrt.dot_self_of_length_eq {sqrt : F → F} (h : IsSqrt sqrt) {v : vec3 F} {r : F}
    (hv : vec3.length sqrt v = r) : dot v v = r * r := by
  obtain ⟨_, h1⟩ := h (dot v v) (dot_self_nonneg v)
  unfold vec3.length at hv
  rw [hv] at h1
  linarith

/-- The squared length is symmetric in the order of the subtraction. -/
theorem dot_sub_comm (a b : vec3 F) : dot (a - b) (a - b) = dot (b - a) (b - a) := by
  unfold dot
  simp only [vec3.sub_x, vec3.sub_y, vec3.sub_z]
  ring

/-- For a direction of squared length 1 and a non-negative discriminant, the parameters at
which the ray meets the sphere are exactly the two roots `tca - thc` and `tca + thc`. -/
theorem Sphere.on_surface_iff {sqrt : F → F} (hs : IsSqrt sqrt) (s : Sphere F) (ray : Ray F)
    (u : F) (hd : dot ray.direction ray.direction = 1) (hdisc : s.d2 ray ≤ s.r2) :
    dot (ray.point_at_parameter u - s.center) (ray.point_at_parameter u - s.center) = s.r2
      ↔ u = s.tca ray - sqrt (s.r2 - s.d2 ray) ∨ u = s.tca ray + sqrt (s.r2 - s.d2 ray) := by
  obtain ⟨_, hsq⟩ := hs (s.r2 - s.d2 ray) (by linarith)
  rw [Sphere.dist_sq_point s ray u hd]
  constructor
  · intro h
    have h0 : (u - (s.tca ray - sqrt (s.r2 - s.d2 ray)))
        * (u - (s.tca ray + sqrt (s.r2 - s.d2 ray))) = 0 := by
      linear_combination h - hsq
    rcases mul_eq_zero.mp h0 with h1 | h1
    · exact Or.inl (by linarith)
    · exact Or.inr (by linarith)
  · rintro (h | h) <;> rw [h] <;> linear_combination hsq

/-- The dot product with a vector divided by a scalar. -/
theorem dot_divs_left (v w : vec3 F) (k : F) : dot (v / k) w = dot v w / k := by
  unfold dot
  simp only [vec3.divs_x, vec3.divs_y, vec3.divs_z]
  ring

/-- The dot product is symmetric. -/
theorem dot_comm (v w : vec3 F) : dot v w = dot w v := by
  unfold dot
  ring

/-- A vector other than zero has a positive squared length. -/
theorem dot_self_pos {v : vec3 F} (hv : v ≠ ⟨0, 0, 0⟩) : 0 < dot v v := by
  rcases lt_or_eq_of_le (dot_self_nonneg v) with h | h
  · exact h
  · exfalso
    apply hv
    unfold dot at h
    have hx : v.x = 0 := by
      nlinarith [mul_self_nonneg v.x, mul_self_nonneg v.y, mul_self_nonneg v.z]
    have hy : v.y = 0 := by
      nlinarith [mul_self_nonneg v.x, mul_self_nonneg v.y, mul_self_nonneg v.z]
    have hz : v.z = 0 := by
      nlinarith [mul_self_nonneg v.x, mul_self_nonneg v.y, mul_self_nonneg v.z]
    rw [vec3.ext_iff3]
    exact ⟨hx, hy, hz⟩

/-- Under `IsSqrt`, a vector other than zero has a positive length, whose square is the
squared length. -/
theorem IsSqrt.length_pos {sqrt : F → F} (h : IsSqrt sqrt) {v : vec3 F}
    (hv : v ≠ ⟨0, 0, 0⟩) :
    0 < vec3.length sqrt v ∧ vec3.length sqrt v * vec3.length sqrt v = dot v v := by
  obtain ⟨h0, h1⟩ := h (dot v v) (dot_self_nonneg v)
  have hp := dot_self_pos hv
  unfold vec3.length
  refine ⟨?_, h1⟩
  rcases lt_or_eq_of_le h0 with h2 | h2
  · exact h2
  · rw [← h2] at h1
    linarith

/-- The point of a hit reported by `Plane.intersect` satisfies the equation of the plane,
whatever the stored normal is. -/
theorem Plane.hit_point_on_plane (pl : Plane F) (ray : Ray F) (t : F)
    (h : (pl.intersect ray t).1 = true) :
    dot pl.normal (ray.point_at_parameter (pl.intersect ray t).2 - pl.pp) = 0 := by
  have hE : (0 : F) < EPS := EPS_pos
  unfold Plane.intersect at h ⊢
  simp only at h ⊢
  split_ifs at h ⊢ with h1
  have hne : dot pl.normal ray.direction ≠ 0 := by
    intro h0
    apply h1
    rw [h0, abs_zero]
    exact hE
  simp only
  unfold Ray.point_at_parameter
  unfold dot at hne ⊢
  simp only [vec3.add_x, vec3.add_y, vec3.add_z, vec3.sub_x, vec3.sub_y, vec3.sub_z,
    vec3.smul_x, vec3.smul_y, vec3.smul_z]
  field_simp
  ring

/-- Under `IsSqrt`, the square root of a positive number is positive. -/
theorem IsSqrt.sqrt_pos {sqrt : F → F} (h : IsSqrt sqrt) {x : F} (hx : 0 < x) :
    0 < sqrt x ∧ sqrt x * sqrt x = x := by
  obtain ⟨h0, h1⟩ := h x hx.le
  refine ⟨?_, h1⟩
  rcases lt_or_eq_of_le h0 with h2 | h2
  · exact h2
  · rw [← h2] at h1
    linarith

/-- Under `IsSqrt`, a vector divided by its length has length 1. -/
theorem IsSqrt.length_unit {sqrt : F → F} (h : IsSqrt sqrt) {x : vec3 F} (hx : 0 < dot x x) :
    vec3.length sqrt (x / vec3.length sqrt x) = 1 := by
  obtain ⟨hpos, hsq⟩ := h.sqrt_pos hx
  have h1 : dot (x / vec3.length sqrt x) (x / vec3.length sqrt x) = 1 * 1 := by
    rw [dot_divs_left, dot_comm, dot_divs_left]
    unfold vec3.length
    rw [div_div, hsq]
    field_simp
  unfold vec3.length at h1 ⊢
  rw [h1]
  exact h.sqrt_mul_self zero_le_one

/-- The identity of Lagrange for the squared length of a cross product. -/
theorem dot_cross_self (u v : vec3 F) :
    dot (cross u v) (cross u v) = dot u u * dot v v - dot u v * dot u v := by
  unfold dot cross
  ring

/-- Two vectors with a cross product other than zero are both other than zero. -/
theorem dot_self_pos_of_cross_ne {u v : vec3 F} (h : cross u v ≠ ⟨0, 0, 0⟩) :
    0 < dot u u ∧ 0 < dot v v := by
  have hc := dot_self_pos h
  rw [dot_cross_self] at hc
  have hu := dot_self_nonneg u
  have hv := dot_self_nonneg v
  constructor
  · rcases lt_or_eq_of_le hu with h1 | h1
    · exact h1
    · rw [← h1] at hc; nlinarith [mul_self_nonneg (dot u v)]
  · rcases lt_or_eq_of_le hv with h1 | h1
    · exact h1
    · rw [← h1] at hc; nlinarith [mul_self_nonneg (dot u v)]

/-- The part of `u` that is left after removing its projection on `v` is orthogonal to `v`. -/
theorem perp_dot_right (u v : vec3 F) (hv : 0 < dot v v) :
    dot (u - v * (dot u v / dot v v)) v = 0 := by
  have hne : dot v v ≠ 0 := ne_of_gt hv
  have : dot (u - v * (dot u v / dot v v)) v = dot u v - dot v v * (dot u v / dot v v) := by
    unfold dot
    simp only [vec3.sub_x, vec3.sub_y, vec3.sub_z, vec3.muls_x, vec3.muls_y, vec3.muls_z]
    ring
  rw [this]
  field_simp

/-- The dot product of a vector with the part of `u` orthogonal to `v`. -/
theorem perp_dot_left (u v x : vec3 F) :
    dot x (u - v * (dot u v / dot v v)) = dot x u - dot x v * (dot u v / dot v v) := by
  unfold dot
  simp only [vec3.sub_x, vec3.sub_y, vec3.sub_z, vec3.muls_x, vec3.muls_y, vec3.muls_z]
  ring

/-- The squared length of the part of `u` orthogonal to `v`. -/
theorem perp_dot_self (u v : vec3 F) (hv : 0 < dot v v) :
    dot (u - v * (dot u v / dot v v)) (u - v * (dot u v / dot v v))
      = dot (cross u v) (cross u v) / dot v v := by
  have hne : dot v v ≠ 0 := ne_of_gt hv
  have h2 : dot (u - v * (dot u v / dot v v)) u
      = dot u u - dot u v * (dot u v / dot v v) := by
    rw [dot_comm]
    exact perp_dot_left u v u
  rw [perp_dot_left u v (u - v * (dot u v / dot v v)), perp_dot_right u v hv, h2,
    dot_cross_self]
  field_simp

/-- The part of `u` orthogonal to `v` lies in the plane of `u` and `v`. -/
theorem perp_dot_cross (u v : vec3 F) :
    dot (u - v * (dot u v / dot v v)) (cross u v) = 0 ∧
    dot (u - v * (dot u v / dot v v)) (cross v u) = 0 := by
  constructor <;>
  · unfold dot cross
    simp only [vec3.sub_x, vec3.sub_y, vec3.sub_z, vec3.muls_x, vec3.muls_y, vec3.muls_z]
    ring
/-- The squared length of a cross product does not depend on the order of the factors. -/
theorem dot_cross_self_comm (u v : vec3 F) :
    dot (cross v u) (cross v u) = dot (cross u v) (cross u v) := by
  unfold dot cross
  ring

/-- For independent `u`, `v` the two orthogonal parts are other than zero. -/
theorem perp_dot_self_pos {u v : vec3 F} (h : cross u v ≠ ⟨0, 0, 0⟩) :
    0 < dot (u - v * (dot u v / dot v v)) (u - v * (dot u v / dot v v)) ∧
    0 < dot (v - u * (dot v u / dot u u)) (v - u * (dot v u / dot u u)) := by
  obtain ⟨hu, hv⟩ := dot_self_pos_of_cross_ne h
  have hn := dot_self_pos h
  constructor
  · rw [perp_dot_self u v hv]
    exact div_pos hn hv
  · rw [perp_dot_self v u hu, dot_cross_self_comm]
    exact div_pos hn hu

/-- The dot product of the two orthogonal parts. -/
theorem perp_dot_perp (u v : vec3 F) (hu : 0 < dot u u) (hv : 0 < dot v v) :
    dot (u - v * (dot u v / dot v v)) (v - u * (dot v u / dot u u))
      = -(dot (cross u v) (cross u v) / (dot u u * dot v v)) * dot u v := by
  have hu0 : dot u u ≠ 0 := ne_of_gt hu
  have hv0 : dot v v ≠ 0 := ne_of_gt hv
  have h2 : dot (u - v * (dot u v / dot v v)) u
      = dot u u - dot u v * (dot u v / dot v v) := by
    rw [dot_comm]
    exact perp_dot_left u v u
  rw [perp_dot_left v u (u - v * (dot u v / dot v v)), perp_dot_right u v hv, h2,
    dot_cross_self, dot_comm v u]
  field_simp
  ring

/-- Addition of vectors is commutative. -/
theorem vec3.add_comm3 (a b : vec3 F) : a + b = b + a := by
  rw [vec3.ext_iff3]
  simp only [vec3.add_x, vec3.add_y, vec3.add_z]
  exact ⟨add_comm _ _, add_comm _ _, add_comm _ _⟩

/-- Independence of two vectors does not depend on their order. -/
theorem cross_swap_ne {u v : vec3 F} (h : cross u v ≠ ⟨0, 0, 0⟩) : cross v u ≠ ⟨0, 0, 0⟩ := by
  intro h0
  apply h
  rw [vec3.ext_iff3] at h0 ⊢
  unfold cross at h0 ⊢
  simp only at h0 ⊢
  obtain ⟨h1, h2, h3⟩ := h0
  exact ⟨by linarith, by linarith, by linarith⟩

/-- Swapping the factors of a cross product changes its sign. -/
theorem dot_cross_swap (u v x : vec3 F) : dot (cross v u) x = -dot (cross u v) x := by
  unfold dot cross
  ring

/-- For `x` in the plane of `u` and `v`, the square of the dot product of `x` with the unit
vector along the part of `u` orthogonal to `v` is the squared distance of `x` from the line
spanned by `v`. -/
theorem perp_dist_sq {sqrt : F → F} (hs : IsSqrt sqrt) (u v x : vec3 F)
    (hnd : cross u v ≠ ⟨0, 0, 0⟩) (hx : dot (cross u v) x = 0) :
    dot x ((u - v * (dot u v / dot v v)) / vec3.length sqrt (u - v * (dot u v / dot v v)))
      * dot x ((u - v * (dot u v / dot v v)) / vec3.length sqrt (u - v * (dot u v / dot v v)))
      = dot x x - dot x v * dot x v / dot v v := by
  obtain ⟨hu, hv⟩ := dot_self_pos_of_cross_ne hnd
  obtain ⟨hw, _⟩ := perp_dot_self_pos hnd
  have hn := dot_self_pos hnd
  obtain ⟨hL, hLs⟩ := hs.sqrt_pos hw
  have hid : (dot x x * dot v v - dot x v * dot x v) * dot (cross u v) (cross u v)
      - (dot x u * dot v v - dot x v * dot u v) * (dot x u * dot v v - dot x v * dot u v)
      = dot (cross u v) x * dot (cross u v) x * dot v v := by
    unfold dot cross
    ring
  rw [hx] at hid
  have hv0 : dot v v ≠ 0 := ne_of_gt hv
  have hn0 : dot (cross u v) (cross u v) ≠ 0 := ne_of_gt hn
  rw [dot_comm x, dot_divs_left, dot_comm _ x, div_mul_div_comm]
  unfold vec3.length
  rw [hLs, perp_dot_self u v hv, perp_dot_left]
  field_simp
  linear_combination (-(dot v v * dot v v)) * hid

/-- For `x = β u + γ v`, the dot product of `x` with the unit vector along the part of `u`
orthogonal to `v` is `β` times the length of that part. -/
theorem perp_coord {sqrt : F → F} (hs : IsSqrt sqrt) (u v x : vec3 F) (β γ : F)
    (hnd : cross u v ≠ ⟨0, 0, 0⟩) (hx : x = β * u + γ * v) :
    dot x ((u - v * (dot u v / dot v v)) / vec3.length sqrt (u - v * (dot u v / dot v v)))
      = β * vec3.length sqrt (u - v * (dot u v / dot v v)) := by
  obtain ⟨hu, hv⟩ := dot_self_pos_of_cross_ne hnd
  obtain ⟨hw, _⟩ := perp_dot_self_pos hnd
  obtain ⟨hL, hLs⟩ := hs.sqrt_pos hw
  have hv0 : dot v v ≠ 0 := ne_of_gt hv
  have h1 : dot x (u - v * (dot u v / dot v v))
      = β * dot (u - v * (dot u v / dot v v)) (u - v * (dot u v / dot v v)) := by
    rw [perp_dot_left u v (u - v * (dot u v / dot v v)), perp_dot_right u v hv,
      perp_dot_left, hx]
    have e1 : dot (β * u + γ * v) u = β * dot u u + γ * dot u v := by
      unfold dot
      simp only [vec3.add_x, vec3.add_y, vec3.add_z, vec3.smul_x, vec3.smul_y, vec3.smul_z]
      ring
    have e2 : dot (β * u + γ * v) v = β * dot u v + γ * dot v v := by
      unfold dot
      simp only [vec3.add_x, vec3.add_y, vec3.add_z, vec3.smul_x, vec3.smul_y, vec3.smul_z]
      ring
    have e3 : dot (u - v * (dot u v / dot v v)) u = dot u u - dot u v * (dot u v / dot v v) := by
      rw [dot_comm]
      exact perp_dot_left u v u
    rw [e1, e2, e3]
    field_simp
    ring
  rw [dot_comm x, dot_divs_left, dot_comm _ x, h1]
  unfold vec3.length
  rw [div_eq_iff (ne_of_gt hL), mul_assoc, hLs]

/-- The result of `Triangle.intersect` in terms of the hit of the plane and of the three
numbers alpha, beta, gama. -/
theorem Triangle.intersect_true_iff (tr : Triangle F) (ray : Ray F) (t : F) :
    (tr.intersect ray t).1 = true ↔
    (tr.plane.intersect ray t).1 = true ∧
    -EPS ≤ 1
        - dot (ray.point_at_parameter (tr.plane.intersect ray t).2 - tr.plane.pp)
            tr.edgeVetorAB
        - dot (ray.point_at_parameter (tr.plane.intersect ray t).2 - tr.plane.pp)
            tr.edgeVetorAC ∧
    -EPS ≤ dot (ray.point_at_parameter (tr.plane.intersect ray t).2 - tr.plane.pp)
        tr.edgeVetorAB ∧
    -EPS ≤ dot (ray.point_at_parameter (tr.plane.intersect ray t).2 - tr.plane.pp)
        tr.edgeVetorAC := by
  unfold Triangle.intersect
  simp only
  split_ifs with h1 h2
  · simp only [Bool.false_eq_true, false_iff, not_and]
    intro hp
    simp [hp] at h1
  · simp only [Bool.false_eq_true, false_iff, not_and, not_le]
    intro _ ha hb
    rcases h2 with h2 | h2 | h2
    · exact absurd h2 (not_lt.mpr ha)
    · exact absurd h2 (not_lt.mpr hb)
    · exact h2
  · simp only [not_or, not_lt] at h2
    simp only [true_iff]
    refine ⟨by simpa using h1, h2.1, h2.2.1, h2.2.2⟩

/-- The fields stored by the constructor for the triangle (1,0,0), (0,1,0), (0,0,1). -/
theorem Triangle.new_example (sqrt : F → F) (color : vec3 F) :
    Triangle.new sqrt color ⟨1, 0, 0⟩ ⟨0, 1, 0⟩ ⟨0, 0, 1⟩
      = ⟨color, ⟨color, ⟨1, 0, 0⟩, ⟨1 / sqrt 3, 1 / sqrt 3, 1 / sqrt 3⟩⟩,
          ⟨-(1 / 2) / sqrt (3 / 2), 1 / sqrt (3 / 2), -(1 / 2) / sqrt (3 / 2)⟩,
          ⟨-(1 / 2) / sqrt (3 / 2), -(1 / 2) / sqrt (3 / 2), 1 / sqrt (3 / 2)⟩⟩ := by
  simp only [Triangle.new, Plane.new, unit_vector, vec3.length, dot, cross, vec3.sub_x,
    vec3.sub_y, vec3.sub_z, vec3.muls_x, vec3.muls_y, vec3.muls_z, vec3.ext_iff3,
    vec3.divs_x, vec3.divs_y, vec3.divs_z, Triangle.mk.injEq, Plane.mk.injEq]
  norm_num

/-- Evaluation of the real square root at a square. -/
theorem real_sqrt_eq {x y : ℝ} (hy : 0 ≤ y) (h : y * y = x) : Real.sqrt x = y := by
  rw [← h]; exact Real.sqrt_mul_self hy

end Lemmas

/-! ## Triangle: the inside test -/

/-- C1 (code bug): the triangle A = (0,0,0), B = (2,0,0), C = (0,2,0) is not degenerate, the
ray from (1, 1/2, 1) with direction (0,0,-1) meets its plane at t = 1 in the point
(1, 1/2, 0) = A + 1/2 (B - A) + 1/4 (C - A), which lies strictly inside the triangle
(barycentric coordinates 1/4, 1/2, 1/4), and yet `Triangle.intersect` returns false. -/
theorem triangle_intersect_rejects_inside_point :
    cross ((⟨2, 0, 0⟩ : vec3 ℝ) - ⟨0, 0, 0⟩) (⟨0, 2, 0⟩ - ⟨0, 0, 0⟩) ≠ ⟨0, 0, 0⟩ ∧
    (Triangle.new Real.sqrt ⟨1, 1, 1⟩ ⟨0, 0, 0⟩ ⟨2, 0, 0⟩ ⟨0, 2, 0⟩).plane.intersect
        ⟨⟨1, 1 / 2, 1⟩, ⟨0, 0, -1⟩⟩ 0 = (true, 1) ∧
    Ray.point_at_parameter ⟨⟨1, 1 / 2, 1⟩, ⟨0, 0, -1⟩⟩ (1 : ℝ)
      = ⟨0, 0, 0⟩ + ((1 / 2 : ℝ) * ((⟨2, 0, 0⟩ : vec3 ℝ) - ⟨0, 0, 0⟩)
          + (1 / 4 : ℝ) * ((⟨0, 2, 0⟩ : vec3 ℝ) - ⟨0, 0, 0⟩)) ∧
    (Triangle.new Real.sqrt ⟨1, 1, 1⟩ ⟨0, 0, 0⟩ ⟨2, 0, 0⟩ ⟨0, 2, 0⟩).intersect
        ⟨⟨1, 1 / 2, 1⟩, ⟨0, 0, -1⟩⟩ 0 = (false, 1) := by
  have h16 : Real.sqrt 16 = 4 := real_sqrt_eq (by norm_num) (by norm_num)
  have h4 : Real.sqrt 4 = 2 := real_sqrt_eq (by norm_num) (by norm_num)
  refine ⟨?_, ?_, ?_, ?_⟩
  · simp [cross, vec3.ext_iff3]
  · simp only [Triangle.new, Plane.new, Plane.intersect, unit_vector, vec3.length, dot, cross,
      EPS, vec3.sub_x, vec3.sub_y, vec3.sub_z, vec3.divs_x, vec3.divs_y, vec3.divs_z]
    norm_num [h16]
  · simp only [Ray.point_at_parameter, vec3.ext_iff3, vec3.add_x, vec3.add_y, vec3.add_z,
      vec3.smul_x, vec3.smul_y, vec3.smul_z, vec3.sub_x, vec3.sub_y, vec3.sub_z]
    norm_num
  · simp only [Triangle.intersect, Triangle.new, Plane.new, Plane.intersect, unit_vector,
      vec3.length, dot, cross, EPS, Ray.point_at_parameter, vec3.sub_x, vec3.sub_y, vec3.sub_z,
      vec3.divs_x, vec3.divs_y, vec3.divs_z, vec3.add_x, vec3.add_y, vec3.add_z,
      vec3.smul_x, vec3.smul_y, vec3.smul_z, vec3.muls_x, vec3.muls_y, vec3.muls_z]
    norm_num [h16, h4]

/-- C2 (code bug): the triangle A = (0,0,0), B = (1/2,0,0), C = (0,1/2,0) is not degenerate,
the ray from (1/2, 1/2, 1) with direction (0,0,-1) meets its plane at t = 1 in the point
(1/2, 1/2, 0) = A + 1 (B - A) + 1 (C - A), whose barycentric coordinate with respect to A is
1 - 1 - 1 = -1 < -EPS, so the point lies outside the triangle, and yet `Triangle.intersect`
returns true. -/
theorem triangle_intersect_accepts_outside_point :
    cross ((⟨1 / 2, 0, 0⟩ : vec3 ℝ) - ⟨0, 0, 0⟩) (⟨0, 1 / 2, 0⟩ - ⟨0, 0, 0⟩) ≠ ⟨0, 0, 0⟩ ∧
    (Triangle.new Real.sqrt ⟨1, 1, 1⟩ ⟨0, 0, 0⟩ ⟨1 / 2, 0, 0⟩ ⟨0, 1 / 2, 0⟩).plane.intersect
        ⟨⟨1 / 2, 1 / 2, 1⟩, ⟨0, 0, -1⟩⟩ 0 = (true, 1) ∧
    Ray.point_at_parameter ⟨⟨1 / 2, 1 / 2, 1⟩, ⟨0, 0, -1⟩⟩ (1 : ℝ)
      = ⟨0, 0, 0⟩ + ((1 : ℝ) * ((⟨1 / 2, 0, 0⟩ : vec3 ℝ) - ⟨0, 0, 0⟩)
          + (1 : ℝ) * ((⟨0, 1 / 2, 0⟩ : vec3 ℝ) - ⟨0, 0, 0⟩)) ∧
    (1 : ℝ) - 1 - 1 < -EPS ∧
    (Triangle.new Real.sqrt ⟨1, 1, 1⟩ ⟨0, 0, 0⟩ ⟨1 / 2, 0, 0⟩ ⟨0, 1 / 2, 0⟩).intersect
        ⟨⟨1 / 2, 1 / 2, 1⟩, ⟨0, 0, -1⟩⟩ 0 = (true, 1) := by
  have h16 : Real.sqrt (1 / 16) = 1 / 4 := real_sqrt_eq (by norm_num) (by norm_num)
  have h4 : Real.sqrt (1 / 4) = 1 / 2 := real_sqrt_eq (by norm_num) (by norm_num)
  refine ⟨?_, ?_, ?_, ?_, ?_⟩
  · simp [cross, vec3.ext_iff3]
  · simp only [Triangle.new, Plane.new, Plane.intersect, unit_vector, vec3.length, dot, cross,
      EPS, vec3.sub_x, vec3.sub_y, vec3.sub_z, vec3.divs_x, vec3.divs_y, vec3.divs_z]
    norm_num [h16]
  · simp only [Ray.point_at_parameter, vec3.ext_iff3, vec3.add_x, vec3.add_y, vec3.add_z,
      vec3.smul_x, vec3.smul_y, vec3.smul_z, vec3.sub_x, vec3.sub_y, vec3.sub_z]
    norm_num
  · norm_num [EPS]
  · simp only [Triangle.intersect, Triangle.new, Plane.new, Plane.intersect, unit_vector,
      vec3.length, dot, cross, EPS, Ray.point_at_parameter, vec3.sub_x, vec3.sub_y, vec3.sub_z,
      vec3.divs_x, vec3.divs_y, vec3.divs_z, vec3.add_x, vec3.add_y, vec3.add_z,
      vec3.smul_x, vec3.smul_y, vec3.smul_z, vec3.muls_x, vec3.muls_y, vec3.muls_z]
    norm_num [h16, h4]

/-! ## Validity of the reported parameter -/

section Validity

variable {F : Type} [LinearOrderedField F]

/-- C3 (amended): a hit reported by `Plane.intersect` or `Triangle.intersect` carries a
parameter `t > EPS`; a hit reported by `Sphere.intersect` for a ray whose discriminant is not
negative (d2 ≤ r2) carries a parameter `t ≥ EPS`.  Nothing is stated for a sphere and a ray
with r2 < d2 < r2 + EPS, where the code takes the square root of a negative number. -/
theorem intersect_hit_parameter_valid (sqrt : F → F) (s : Sphere F) (pl : Plane F)
    (tr : Triangle F) (ray : Ray F) (t : F) :
    (s.d2 ray ≤ s.r2 → (s.intersect sqrt ray t).1 = true →
      EPS ≤ (s.intersect sqrt ray t).2) ∧
    ((pl.intersect ray t).1 = true → EPS < (pl.intersect ray t).2) ∧
    ((tr.intersect ray t).1 = true → EPS < (tr.intersect ray t).2) := by
  refine ⟨fun _ => Sphere.intersect_hit_ge sqrt s ray t, Plane.intersect_hit_gt pl ray t,
    fun h => ?_⟩
  obtain ⟨hp, ht⟩ := Triangle.intersect_hit_plane tr ray t h
  rw [ht]
  exact Plane.intersect_hit_gt tr.plane ray t hp

end Validity

/-- C3 (witness): the sphere of centre (0,0,-5) and radius 1 (for which d2 = 0 ≤ r2 = 1), the
plane through (0,0,-5) with normal (0,0,1) and a triangle in the plane z = 0 are all hit by a
ray pointing down the z axis, with parameters within the stated bounds. -/
theorem intersect_hit_parameter_valid_witness :
    (Sphere.d2 ⟨⟨1, 1, 1⟩, ⟨0, 0, -5⟩, 1⟩ ⟨⟨0, 0, 0⟩, ⟨0, 0, -1⟩⟩
        ≤ Sphere.r2 (⟨⟨1, 1, 1⟩, ⟨0, 0, -5⟩, 1⟩ : Sphere ℝ) ∧
      (Sphere.intersect Real.sqrt ⟨⟨1, 1, 1⟩, ⟨0, 0, -5⟩, 1⟩
          ⟨⟨0, 0, 0⟩, ⟨0, 0, -1⟩⟩ 0).1 = true ∧
      (EPS : ℝ) ≤ (Sphere.intersect Real.sqrt ⟨⟨1, 1, 1⟩, ⟨0, 0, -5⟩, 1⟩
          ⟨⟨0, 0, 0⟩, ⟨0, 0, -1⟩⟩ 0).2) ∧
    ((Plane.intersect ⟨⟨1, 1, 1⟩, ⟨0, 0, -5⟩, ⟨0, 0, 1⟩⟩
          ⟨⟨0, 0, 0⟩, ⟨0, 0, -1⟩⟩ (0 : ℝ)).1 = true ∧
      (EPS : ℝ) < (Plane.intersect ⟨⟨1, 1, 1⟩, ⟨0, 0, -5⟩, ⟨0, 0, 1⟩⟩
          ⟨⟨0, 0, 0⟩, ⟨0, 0, -1⟩⟩ (0 : ℝ)).2) ∧
    ((Triangle.intersect ⟨⟨1, 1, 1⟩, ⟨⟨1, 1, 1⟩, ⟨0, 0, 0⟩, ⟨0, 0, 1⟩⟩, ⟨1, 0, 0⟩, ⟨0, 1, 0⟩⟩
          ⟨⟨1 / 4, 1 / 4, 1⟩, ⟨0, 0, -1⟩⟩ (0 : ℝ)).1 = true ∧
      (EPS : ℝ) < (Triangle.intersect
          ⟨⟨1, 1, 1⟩, ⟨⟨1, 1, 1⟩, ⟨0, 0, 0⟩, ⟨0, 0, 1⟩⟩, ⟨1, 0, 0⟩, ⟨0, 1, 0⟩⟩
          ⟨⟨1 / 4, 1 / 4, 1⟩, ⟨0, 0, -1⟩⟩ (0 : ℝ)).2) := by
  have hD : Sphere.d2 ⟨⟨1, 1, 1⟩, ⟨0, 0, -5⟩, 1⟩ ⟨⟨0, 0, 0⟩, ⟨0, 0, -1⟩⟩
      ≤ Sphere.r2 (⟨⟨1, 1, 1⟩, ⟨0, 0, -5⟩, 1⟩ : Sphere ℝ) := by
    norm_num [Sphere.d2, Sphere.r2, Sphere.tca, dot]
  have hS : (Sphere.intersect Real.sqrt ⟨⟨1, 1, 1⟩, ⟨0, 0, -5⟩, 1⟩
      ⟨⟨0, 0, 0⟩, ⟨0, 0, -1⟩⟩ 0).1 = true := by
    simp only [Sphere.intersect, signum, dot, EPS, vec3.sub_x, vec3.sub_y, vec3.sub_z]
    norm_num
  have hP : (Plane.intersect ⟨⟨1, 1, 1⟩, ⟨0, 0, -5⟩, ⟨0, 0, 1⟩⟩
      ⟨⟨0, 0, 0⟩, ⟨0, 0, -1⟩⟩ (0 : ℝ)).1 = true := by
    simp only [Plane.intersect, dot, EPS, vec3.sub_x, vec3.sub_y, vec3.sub_z]
    norm_num
  have hT : (Triangle.intersect
      ⟨⟨1, 1, 1⟩, ⟨⟨1, 1, 1⟩, ⟨0, 0, 0⟩, ⟨0, 0, 1⟩⟩, ⟨1, 0, 0⟩, ⟨0, 1, 0⟩⟩
      ⟨⟨1 / 4, 1 / 4, 1⟩, ⟨0, 0, -1⟩⟩ (0 : ℝ)).1 = true := by
    simp only [Triangle.intersect, Plane.intersect, dot, EPS, Ray.point_at_parameter,
      vec3.sub_x, vec3.sub_y, vec3.sub_z, vec3.add_x, vec3.add_y, vec3.add_z,
      vec3.smul_x, vec3.smul_y, vec3.smul_z]
    norm_num
  exact ⟨⟨hD, hS, (intersect_hit_parameter_valid Real.sqrt _ ⟨⟨1, 1, 1⟩, ⟨0, 0, -5⟩, ⟨0, 0, 1⟩⟩
      ⟨⟨1, 1, 1⟩, ⟨⟨1, 1, 1⟩, ⟨0, 0, 0⟩, ⟨0, 0, 1⟩⟩, ⟨1, 0, 0⟩, ⟨0, 1, 0⟩⟩ _ 0).1 hD hS⟩,
    ⟨hP, (intersect_hit_parameter_valid Real.sqrt ⟨⟨1, 1, 1⟩, ⟨0, 0, -5⟩, 1⟩ _
      ⟨⟨1, 1, 1⟩, ⟨⟨1, 1, 1⟩, ⟨0, 0, 0⟩, ⟨0, 0, 1⟩⟩, ⟨1, 0, 0⟩, ⟨0, 1, 0⟩⟩ _ 0).2.1 hP⟩,
    ⟨hT, (intersect_hit_parameter_valid Real.sqrt ⟨⟨1, 1, 1⟩, ⟨0, 0, -5⟩, 1⟩
      ⟨⟨1, 1, 1⟩, ⟨0, 0, -5⟩, ⟨0, 0, 1⟩⟩ _ _ 0).2.2 hT⟩⟩

/-- C3 (counterexample): the sphere of centre (0, 1, -EPS) and radius 1 and the ray from the
origin with direction (0,0,-1): every coordinate is 0, 1, -1 or the constant `EPS` itself.
The ray is tangent to the sphere (tca = EPS, d2 = r2 = 1, thc = 0), the two roots are
t0 = t1 = EPS, the test `t0 < EPS` fails and the call reports a hit with t = EPS, which is not
greater than `EPS`. -/
theorem sphere_hit_parameter_not_gt_EPS :
    Sphere.d2 ⟨⟨1, 1, 1⟩, ⟨0, 1, -EPS⟩, 1⟩ ⟨⟨0, 0, 0⟩, ⟨0, 0, -1⟩⟩
      = Sphere.r2 (⟨⟨1, 1, 1⟩, ⟨0, 1, -EPS⟩, 1⟩ : Sphere ℝ) ∧
    Sphere.intersect Real.sqrt ⟨⟨1, 1, 1⟩, ⟨0, 1, -EPS⟩, 1⟩ ⟨⟨0, 0, 0⟩, ⟨0, 0, -1⟩⟩ 0
      = (true, EPS) ∧
    (Sphere.intersect Real.sqrt ⟨⟨1, 1, 1⟩, ⟨0, 1, -EPS⟩, 1⟩
        ⟨⟨0, 0, 0⟩, ⟨0, 0, -1⟩⟩ 0).1 = true ∧
    ¬ (Sphere.intersect Real.sqrt ⟨⟨1, 1, 1⟩, ⟨0, 1, -EPS⟩, 1⟩
        ⟨⟨0, 0, 0⟩, ⟨0, 0, -1⟩⟩ 0).2 > EPS := by
  have h : Sphere.intersect Real.sqrt ⟨⟨1, 1, 1⟩, ⟨0, 1, -EPS⟩, 1⟩
      ⟨⟨0, 0, 0⟩, ⟨0, 0, -1⟩⟩ 0 = (true, EPS) := by
    simp only [Sphere.intersect, signum, dot, EPS, vec3.sub_x, vec3.sub_y, vec3.sub_z]
    norm_num
  refine ⟨by norm_num [Sphere.d2, Sphere.r2, Sphere.tca, dot, EPS], h, by rw [h], ?_⟩
  rw [h]; simp

/-! ## Sphere: the hit point and the discriminant test -/

section SphereSurface

variable {F : Type} [LinearOrderedField F]

/-- C4 (amended): for a sphere of radius r ≥ 0 and a ray with unit-length direction whose
discriminant is not negative (d2 ≤ r2), if `Sphere.intersect` reports a hit with parameter t
then the point of the ray at t lies exactly on the sphere, |point - c| = r, hence within
1e-4 of its surface. -/
theorem sphere_hit_point_on_surface (sqrt : F → F) (hs : IsSqrt sqrt) (s : Sphere F)
    (ray : Ray F) (t : F) (hr : 0 ≤ s.radius)
    (hd : vec3.length sqrt ray.direction = 1)
    (hdisc : s.d2 ray ≤ s.r2)
    (hhit : (s.intersect sqrt ray t).1 = true) :
    vec3.length sqrt (ray.point_at_parameter (s.intersect sqrt ray t).2 - s.center) = s.radius ∧
    |vec3.length sqrt (ray.point_at_parameter (s.intersect sqrt ray t).2 - s.center)
        - s.radius| ≤ 1 / 10000 := by
  have hd1 : dot ray.direction ray.direction = 1 := hs.dot_self_of_length_eq_one hd
  obtain ⟨_, hsq⟩ := hs (s.r2 - s.d2 ray) (by linarith)
  have key : vec3.length sqrt (ray.point_at_parameter (s.intersect sqrt ray t).2 - s.center)
      = s.radius := by
    unfold vec3.length
    rw [Sphere.dist_sq_point s ray _ hd1]
    rw [Sphere.intersect_eq] at hhit ⊢
    have hsurf : ∀ u : F, (u = s.tca ray - sqrt (s.r2 - s.d2 ray) ∨
        u = s.tca ray + sqrt (s.r2 - s.d2 ray)) →
        sqrt ((u - s.tca ray) * (u - s.tca ray) + s.d2 ray) = s.radius := by
      intro u hu
      have : (u - s.tca ray) * (u - s.tca ray) + s.d2 ray = s.radius * s.radius := by
        have hr2 : s.r2 = s.radius * s.radius := rfl
        rcases hu with hu | hu <;> rw [hu] <;> linear_combination hsq + hr2
      rw [this]
      exact hs.sqrt_mul_self hr
    split_ifs at hhit ⊢ with h1 h2 h3
    · exact hsurf _ (Or.inr rfl)
    · exact hsurf _ (Or.inl rfl)
  refine ⟨key, ?_⟩
  rw [key, sub_self, abs_zero]
  positivity

/-- C5 (amended): if d2 exceeds r2 by at least the tolerance, d2 - r2 ≥ EPS, then
`Sphere.intersect` returns false and leaves `t` as it was. -/
theorem sphere_miss_beyond_tolerance (sqrt : F → F) (s : Sphere F) (ray : Ray F) (t : F)
    (h : EPS ≤ s.d2 ray - s.r2) :
    s.intersect sqrt ray t = (false, t) := by
  rw [Sphere.intersect_eq, if_pos h]

end SphereSurface

/-- C4 (witness): the sphere of centre (0,0,-5) and radius 1 and the ray from the origin with
direction (0,0,-1). -/
theorem sphere_hit_point_on_surface_witness :
    (Sphere.intersect Real.sqrt ⟨⟨1, 1, 1⟩, ⟨0, 0, -5⟩, 1⟩ ⟨⟨0, 0, 0⟩, ⟨0, 0, -1⟩⟩ 0).1 = true ∧
    vec3.length Real.sqrt
      (Ray.point_at_parameter ⟨⟨0, 0, 0⟩, ⟨0, 0, -1⟩⟩
        (Sphere.intersect Real.sqrt ⟨⟨1, 1, 1⟩, ⟨0, 0, -5⟩, 1⟩ ⟨⟨0, 0, 0⟩, ⟨0, 0, -1⟩⟩ 0).2
        - ⟨0, 0, -5⟩) = 1 := by
  have hS : (Sphere.intersect Real.sqrt ⟨⟨1, 1, 1⟩, ⟨0, 0, -5⟩, 1⟩
      ⟨⟨0, 0, 0⟩, ⟨0, 0, -1⟩⟩ 0).1 = true := by
    simp only [Sphere.intersect, signum, dot, EPS, vec3.sub_x, vec3.sub_y, vec3.sub_z]
    norm_num
  exact ⟨hS, (sphere_hit_point_on_surface Real.sqrt isSqrt_real ⟨⟨1, 1, 1⟩, ⟨0, 0, -5⟩, 1⟩
    ⟨⟨0, 0, 0⟩, ⟨0, 0, -1⟩⟩ 0 (by norm_num) (by norm_num [vec3.length, dot])
    (by norm_num [Sphere.d2, Sphere.r2, Sphere.tca, dot]) hS).1⟩

/-- C4 (counterexample): the sphere of centre (0, 1/2000, -1) and radius 1/10000 and the ray
from the origin with the unit direction (0,0,-1): d2 - r2 = 2.4e-7 lies below EPS, a hit is
reported with t = 1, and the point (0,0,-1) is at distance 1/2000 from the centre, which
differs from the radius by 4e-4 > 1e-4. -/
theorem sphere_hit_point_off_surface :
    (0 : ℝ) ≤ 1 / 10000 ∧
    vec3.length Real.sqrt (⟨0, 0, -1⟩ : vec3 ℝ) = 1 ∧
    (Sphere.intersect Real.sqrt ⟨⟨1, 1, 1⟩, ⟨0, 1 / 2000, -1⟩, 1 / 10000⟩
        ⟨⟨0, 0, 0⟩, ⟨0, 0, -1⟩⟩ 0).1 = true ∧
    ¬ |vec3.length Real.sqrt
        (Ray.point_at_parameter ⟨⟨0, 0, 0⟩, ⟨0, 0, -1⟩⟩
          (Sphere.intersect Real.sqrt ⟨⟨1, 1, 1⟩, ⟨0, 1 / 2000, -1⟩, 1 / 10000⟩
            ⟨⟨0, 0, 0⟩, ⟨0, 0, -1⟩⟩ 0).2 - ⟨0, 1 / 2000, -1⟩) - 1 / 10000| ≤ 1 / 10000 := by
  have h : Sphere.intersect Real.sqrt ⟨⟨1, 1, 1⟩, ⟨0, 1 / 2000, -1⟩, 1 / 10000⟩
      ⟨⟨0, 0, 0⟩, ⟨0, 0, -1⟩⟩ 0 = (true, 1) := by
    have h0 : Real.sqrt (-(3 / 12500000)) = 0 := Real.sqrt_eq_zero_of_nonpos (by norm_num)
    have ha : |(3 : ℝ) / 12500000| = 3 / 12500000 := abs_of_pos (by norm_num)
    simp only [Sphere.intersect, signum, dot, EPS, vec3.sub_x, vec3.sub_y, vec3.sub_z]
    norm_num [h0, ha]
  have hl : vec3.length Real.sqrt
      (Ray.point_at_parameter ⟨⟨0, 0, 0⟩, ⟨0, 0, -1⟩⟩ (1 : ℝ) - ⟨0, 1 / 2000, -1⟩)
      = 1 / 2000 := by
    simp only [vec3.length, dot, Ray.point_at_parameter, vec3.sub_x, vec3.sub_y, vec3.sub_z,
      vec3.add_x, vec3.add_y, vec3.add_z, vec3.smul_x, vec3.smul_y, vec3.smul_z]
    exact real_sqrt_eq (by norm_num) (by norm_num)
  refine ⟨by norm_num, by norm_num [vec3.length, dot], by rw [h], ?_⟩
  rw [h]
  simp only [hl]
  rw [abs_of_pos (by norm_num)]
  norm_num

/-- C5 (witness): the sphere of centre (0,0,-5) and radius 1 is missed by the ray from the
origin with direction (0,1,0), for which d2 - r2 = 24. -/
theorem sphere_miss_beyond_tolerance_witness :
    (EPS : ℝ) ≤ Sphere.d2 ⟨⟨1, 1, 1⟩, ⟨0, 0, -5⟩, 1⟩ ⟨⟨0, 0, 0⟩, ⟨0, 1, 0⟩⟩
        - Sphere.r2 (⟨⟨1, 1, 1⟩, ⟨0, 0, -5⟩, 1⟩ : Sphere ℝ) ∧
    Sphere.intersect Real.sqrt ⟨⟨1, 1, 1⟩, ⟨0, 0, -5⟩, 1⟩ ⟨⟨0, 0, 0⟩, ⟨0, 1, 0⟩⟩ 0
      = (false, 0) :=
  ⟨by norm_num [Sphere.d2, Sphere.r2, Sphere.tca, dot, EPS],
    sphere_miss_beyond_tolerance Real.sqrt _ _ 0
      (by norm_num [Sphere.d2, Sphere.r2, Sphere.tca, dot, EPS])⟩

/-- C5 (counterexample): for the sphere of centre (0, 1 + 1e-7, -1) and radius 1 and the ray
from the origin with the unit direction (0,0,-1), d2 = (1 + 1e-7)^2 is greater than r2 = 1,
and yet `Sphere.intersect` returns true. -/
theorem sphere_hit_with_d2_gt_r2 :
    vec3.length Real.sqrt (⟨0, 0, -1⟩ : vec3 ℝ) = 1 ∧
    Sphere.d2 ⟨⟨1, 1, 1⟩, ⟨0, 10000001 / 10000000, -1⟩, 1⟩ ⟨⟨0, 0, 0⟩, ⟨0, 0, -1⟩⟩
      > Sphere.r2 (⟨⟨1, 1, 1⟩, ⟨0, 10000001 / 10000000, -1⟩, 1⟩ : Sphere ℝ) ∧
    (Sphere.intersect Real.sqrt ⟨⟨1, 1, 1⟩, ⟨0, 10000001 / 10000000, -1⟩, 1⟩
        ⟨⟨0, 0, 0⟩, ⟨0, 0, -1⟩⟩ 0).1 = true := by
  refine ⟨by norm_num [vec3.length, dot],
    by norm_num [Sphere.d2, Sphere.r2, Sphere.tca, dot], ?_⟩
  rw [Sphere.intersect_eq]
  have hd : Sphere.d2 ⟨⟨1, 1, 1⟩, ⟨0, 10000001 / 10000000, -1⟩, 1⟩ ⟨⟨0, 0, 0⟩, ⟨0, 0, -1⟩⟩
      - Sphere.r2 (⟨⟨1, 1, 1⟩, ⟨0, 10000001 / 10000000, -1⟩, 1⟩ : Sphere ℝ)
      = 20000001 / 100000000000000 := by
    norm_num [Sphere.d2, Sphere.r2, Sphere.tca, dot]
  have ht : Sphere.tca ⟨⟨1, 1, 1⟩, ⟨0, 10000001 / 10000000, -1⟩, 1⟩
      (⟨⟨0, 0, 0⟩, ⟨0, 0, -1⟩⟩ : Ray ℝ) = 1 := by
    norm_num [Sphere.tca, dot]
  have h0 : Real.sqrt (Sphere.r2 (⟨⟨1, 1, 1⟩, ⟨0, 10000001 / 10000000, -1⟩, 1⟩ : Sphere ℝ)
      - Sphere.d2 ⟨⟨1, 1, 1⟩, ⟨0, 10000001 / 10000000, -1⟩, 1⟩ ⟨⟨0, 0, 0⟩, ⟨0, 0, -1⟩⟩) = 0 :=
    Real.sqrt_eq_zero_of_nonpos (by linarith)
  rw [hd, ht, h0]
  norm_num [EPS]

/-! ## Sphere: which root is returned -/

section SphereRoots

variable {F : Type} [LinearOrderedField F]

/-- C6 (amended): for a sphere of radius r > 0 and a ray with unit-length direction whose
origin is at distance > r from the centre, with tca > 0 and d2 < r2, and whose near root
t0 = tca - sqrt(r2 - d2) is at least EPS, `Sphere.intersect` returns true with t = t0, and t0
is the smaller of the two roots t0 ≤ t1 of |origin + u*direction - center|^2 = r^2. -/
theorem sphere_outside_hit_near_root (sqrt : F → F) (hs : IsSqrt sqrt) (s : Sphere F)
    (ray : Ray F) (t : F) (_hr : 0 < s.radius)
    (hd : vec3.length sqrt ray.direction = 1)
    (_hout : s.radius < vec3.length sqrt (s.center - ray.origin))
    (_htca : 0 < s.tca ray) (hd2 : s.d2 ray < s.r2)
    (hEPS : EPS ≤ s.tca ray - sqrt (s.r2 - s.d2 ray)) :
    s.intersect sqrt ray t = (true, s.tca ray - sqrt (s.r2 - s.d2 ray)) ∧
    s.tca ray - sqrt (s.r2 - s.d2 ray) ≤ s.tca ray + sqrt (s.r2 - s.d2 ray) ∧
    ∀ u : F,
      dot (ray.point_at_parameter u - s.center) (ray.point_at_parameter u - s.center)
          = s.radius * s.radius
        ↔ u = s.tca ray - sqrt (s.r2 - s.d2 ray) ∨ u = s.tca ray + sqrt (s.r2 - s.d2 ray) := by
  have hd1 : dot ray.direction ray.direction = 1 := hs.dot_self_of_length_eq_one hd
  obtain ⟨hq, _⟩ := hs (s.r2 - s.d2 ray) (by linarith)
  have hE : (0 : F) < EPS := EPS_pos
  refine ⟨?_, by linarith, fun u => Sphere.on_surface_iff hs s ray u hd1 hd2.le⟩
  rw [Sphere.intersect_eq, if_neg (by linarith), if_neg (by linarith)]

/-- C7 (amended): for a sphere of radius r > 0 and a ray with unit-length direction whose
origin lies strictly inside the sphere, and whose far root t1 = tca + sqrt(r2 - d2) is at
least EPS, `Sphere.intersect` returns true with t = t1; the near root t0 is negative, so it
is never the one returned. -/
theorem sphere_inside_hit_far_root (sqrt : F → F) (hs : IsSqrt sqrt) (s : Sphere F)
    (ray : Ray F) (t : F) (hr : 0 < s.radius)
    (_hd : vec3.length sqrt ray.direction = 1)
    (hin : vec3.length sqrt (ray.origin - s.center) < s.radius)
    (hEPS : EPS ≤ s.tca ray + sqrt (s.r2 - s.d2 ray)) :
    s.intersect sqrt ray t = (true, s.tca ray + sqrt (s.r2 - s.d2 ray)) ∧
    s.tca ray - sqrt (s.r2 - s.d2 ray) < 0 ∧
    s.tca ray + sqrt (s.r2 - s.d2 ray) ≠ s.tca ray - sqrt (s.r2 - s.d2 ray) := by
  have hE : (0 : F) < EPS := EPS_pos
  -- the origin is strictly inside: |v|^2 < r2
  obtain ⟨hl0, hl1⟩ := hs _ (dot_self_nonneg (ray.origin - s.center))
  have hv : dot (s.center - ray.origin) (s.center - ray.origin) < s.r2 := by
    rw [dot_sub_comm, ← hl1]
    unfold vec3.length at hin
    unfold Sphere.r2
    nlinarith
  have hd2 : s.d2 ray < s.r2 := by
    have : s.d2 ray ≤ dot (s.center - ray.origin) (s.center - ray.origin) := by
      unfold Sphere.d2
      nlinarith [mul_self_nonneg (s.tca ray)]
    linarith
  obtain ⟨hq, hsq⟩ := hs (s.r2 - s.d2 ray) (by linarith)
  -- thc exceeds |tca|
  have hq2 : s.tca ray * s.tca ray < sqrt (s.r2 - s.d2 ray) * sqrt (s.r2 - s.d2 ray) := by
    rw [hsq]
    unfold Sphere.d2
    linarith
  have hlt : s.tca ray < sqrt (s.r2 - s.d2 ray) := by
    by_contra hcon
    push_neg at hcon
    nlinarith
  refine ⟨?_, by linarith, by linarith⟩
  rw [Sphere.intersect_eq, if_neg (by linarith), if_pos (by linarith), if_neg (by linarith)]

/-- C8 (amended): for a ray with unit-length direction that is tangent to the sphere
(d2 = r2) and whose tangent parameter tca is at least EPS, `Sphere.intersect` returns true
with t = tca; thc = 0, the two roots coincide, and tca is the only parameter at which the ray
meets the sphere. -/
theorem sphere_tangent_hit (sqrt : F → F) (hs : IsSqrt sqrt) (s : Sphere F)
    (ray : Ray F) (t : F)
    (hd : vec3.length sqrt ray.direction = 1)
    (htan : s.d2 ray = s.r2)
    (hEPS : EPS ≤ s.tca ray) :
    s.intersect sqrt ray t = (true, s.tca ray) ∧
    sqrt (s.r2 - s.d2 ray) = 0 ∧
    s.tca ray - sqrt (s.r2 - s.d2 ray) = s.tca ray ∧
    s.tca ray + sqrt (s.r2 - s.d2 ray) = s.tca ray ∧
    ∀ u : F,
      dot (ray.point_at_parameter u - s.center) (ray.point_at_parameter u - s.center)
          = s.radius * s.radius ↔ u = s.tca ray := by
  have hd1 : dot ray.direction ray.direction = 1 := hs.dot_self_of_length_eq_one hd
  have hE : (0 : F) < EPS := EPS_pos
  have hq : sqrt (s.r2 - s.d2 ray) = 0 := by
    have := hs.sqrt_mul_self (le_refl (0 : F))
    rw [htan, sub_self]
    simpa using this
  refine ⟨?_, hq, by rw [hq, sub_zero], by rw [hq, add_zero], fun u => ?_⟩
  · rw [Sphere.intersect_eq, hq, sub_zero, add_zero, if_neg (by linarith),
      if_neg (by linarith)]
  · have h := Sphere.on_surface_iff hs s ray u hd1 htan.le
    rw [hq, sub_zero, add_zero, or_self] at h
    exact h

/-- C9: for a ray with unit-length direction, if `Sphere.intersect` reports a hit with
parameter t, then no parameter u with EPS ≤ u < t puts the point of the ray at u on the
sphere's surface. -/
theorem sphere_hit_is_smallest (sqrt : F → F) (hs : IsSqrt sqrt) (s : Sphere F)
    (ray : Ray F) (t : F)
    (hd : vec3.length sqrt ray.direction = 1)
    (hhit : (s.intersect sqrt ray t).1 = true)
    (u : F) (hu : EPS ≤ u) (hut : u < (s.intersect sqrt ray t).2) :
    vec3.length sqrt (ray.point_at_parameter u - s.center) ≠ s.radius := by
  intro hon
  have hd1 : dot ray.direction ray.direction = 1 := hs.dot_self_of_length_eq_one hd
  have hdot := hs.dot_self_of_length_eq hon
  have hdist := Sphere.dist_sq_point s ray u hd1
  -- the discriminant is not negative, since the ray meets the sphere at u
  have hdisc : s.d2 ray ≤ s.r2 := by
    unfold Sphere.r2
    nlinarith [mul_self_nonneg (u - s.tca ray)]
  have hroots := (Sphere.on_surface_iff hs s ray u hd1 hdisc).mp hdot
  obtain ⟨hq, _⟩ := hs (s.r2 - s.d2 ray) (by linarith)
  rw [Sphere.intersect_eq] at hhit hut
  split_ifs at hhit hut with h1 h2 h3
  · simp only at hut
    rcases hroots with h | h <;> linarith
  · simp only at hut
    rcases hroots with h | h <;> linarith

end SphereRoots

/-- C6 (witness): the sphere of centre (0,0,-5) and radius 1 and the ray from the origin with
direction (0,0,-1): tca = 5, d2 = 0, t0 = 4. -/
theorem sphere_outside_hit_near_root_witness :
    Sphere.intersect Real.sqrt ⟨⟨1, 1, 1⟩, ⟨0, 0, -5⟩, 1⟩ ⟨⟨0, 0, 0⟩, ⟨0, 0, -1⟩⟩ 0
      = (true, Sphere.tca ⟨⟨1, 1, 1⟩, ⟨0, 0, -5⟩, 1⟩ ⟨⟨0, 0, 0⟩, ⟨0, 0, -1⟩⟩
          - Real.sqrt (Sphere.r2 ⟨⟨1, 1, 1⟩, ⟨0, 0, -5⟩, 1⟩
              - Sphere.d2 ⟨⟨1, 1, 1⟩, ⟨0, 0, -5⟩, 1⟩ ⟨⟨0, 0, 0⟩, ⟨0, 0, -1⟩⟩)) := by
  have h25 : Real.sqrt 25 = 5 := real_sqrt_eq (by norm_num) (by norm_num)
  exact (sphere_outside_hit_near_root Real.sqrt isSqrt_real ⟨⟨1, 1, 1⟩, ⟨0, 0, -5⟩, 1⟩
    ⟨⟨0, 0, 0⟩, ⟨0, 0, -1⟩⟩ 0 (by norm_num) (by norm_num [vec3.length, dot])
    (by norm_num [vec3.length, dot, h25])
    (by norm_num [Sphere.tca, dot])
    (by norm_num [Sphere.d2, Sphere.r2, Sphere.tca, dot])
    (by norm_num [Sphere.d2, Sphere.r2, Sphere.tca, dot, EPS])).1

/-- C6 (counterexample): the sphere of centre (0, 0, -(1 + 1e-7)) and radius 1 and the ray from
the origin with the unit direction (0,0,-1): the origin is at distance 1 + 1e-7 > 1 from the
centre, tca = 1 + 1e-7 > 0 and d2 = 0 < r2 = 1, but the near root t0 = 1e-7 is below EPS and
the call returns the far root t1 = 2 + 1e-7. -/
theorem sphere_outside_hit_far_root :
    (0 : ℝ) < 1 ∧
    vec3.length Real.sqrt (⟨0, 0, -1⟩ : vec3 ℝ) = 1 ∧
    (1 : ℝ) < vec3.length Real.sqrt ((⟨0, 0, -(10000001 / 10000000)⟩ : vec3 ℝ) - ⟨0, 0, 0⟩) ∧
    (0 : ℝ) < Sphere.tca ⟨⟨1, 1, 1⟩, ⟨0, 0, -(10000001 / 10000000)⟩, 1⟩
      ⟨⟨0, 0, 0⟩, ⟨0, 0, -1⟩⟩ ∧
    Sphere.d2 ⟨⟨1, 1, 1⟩, ⟨0, 0, -(10000001 / 10000000)⟩, 1⟩ ⟨⟨0, 0, 0⟩, ⟨0, 0, -1⟩⟩
      < Sphere.r2 (⟨⟨1, 1, 1⟩, ⟨0, 0, -(10000001 / 10000000)⟩, 1⟩ : Sphere ℝ) ∧
    Sphere.intersect Real.sqrt ⟨⟨1, 1, 1⟩, ⟨0, 0, -(10000001 / 10000000)⟩, 1⟩
        ⟨⟨0, 0, 0⟩, ⟨0, 0, -1⟩⟩ 0 = (true, 20000001 / 10000000) ∧
    (Sphere.intersect Real.sqrt ⟨⟨1, 1, 1⟩, ⟨0, 0, -(10000001 / 10000000)⟩, 1⟩
        ⟨⟨0, 0, 0⟩, ⟨0, 0, -1⟩⟩ 0).2
      ≠ Sphere.tca ⟨⟨1, 1, 1⟩, ⟨0, 0, -(10000001 / 10000000)⟩, 1⟩ ⟨⟨0, 0, 0⟩, ⟨0, 0, -1⟩⟩
          - Real.sqrt (Sphere.r2 ⟨⟨1, 1, 1⟩, ⟨0, 0, -(10000001 / 10000000)⟩, 1⟩
              - Sphere.d2 ⟨⟨1, 1, 1⟩, ⟨0, 0, -(10000001 / 10000000)⟩, 1⟩
                  ⟨⟨0, 0, 0⟩, ⟨0, 0, -1⟩⟩) := by
  have hl : Real.sqrt (100000020000001 / 100000000000000) = 10000001 / 10000000 :=
    real_sqrt_eq (by norm_num) (by norm_num)
  have ht : Sphere.tca ⟨⟨1, 1, 1⟩, ⟨0, 0, -(10000001 / 10000000)⟩, 1⟩
      (⟨⟨0, 0, 0⟩, ⟨0, 0, -1⟩⟩ : Ray ℝ) = 10000001 / 10000000 := by
    norm_num [Sphere.tca, dot]
  have hd : Sphere.d2 ⟨⟨1, 1, 1⟩, ⟨0, 0, -(10000001 / 10000000)⟩, 1⟩
      (⟨⟨0, 0, 0⟩, ⟨0, 0, -1⟩⟩ : Ray ℝ) = 0 := by
    norm_num [Sphere.d2, Sphere.tca, dot]
  have hr : Sphere.r2 (⟨⟨1, 1, 1⟩, ⟨0, 0, -(10000001 / 10000000)⟩, 1⟩ : Sphere ℝ) = 1 := by
    norm_num [Sphere.r2]
  refine ⟨by norm_num, by norm_num [vec3.length, dot], ?_, ?_, ?_, ?_, ?_⟩
  · norm_num [vec3.length, dot, hl]
  · rw [ht]; norm_num
  · rw [hd, hr]; norm_num
  · rw [Sphere.intersect_eq, ht, hd, hr]
    norm_num [EPS]
  · rw [Sphere.intersect_eq, ht, hd, hr]
    norm_num [EPS]

/-- C7 (witness): the sphere of centre (0,0,0) and radius 1 and the ray from its centre with
direction (0,0,-1): tca = 0, d2 = 0, t1 = 1. -/
theorem sphere_inside_hit_far_root_witness :
    Sphere.intersect Real.sqrt ⟨⟨1, 1, 1⟩, ⟨0, 0, 0⟩, 1⟩ ⟨⟨0, 0, 0⟩, ⟨0, 0, -1⟩⟩ 0
      = (true, Sphere.tca ⟨⟨1, 1, 1⟩, ⟨0, 0, 0⟩, 1⟩ ⟨⟨0, 0, 0⟩, ⟨0, 0, -1⟩⟩
          + Real.sqrt (Sphere.r2 ⟨⟨1, 1, 1⟩, ⟨0, 0, 0⟩, 1⟩
              - Sphere.d2 ⟨⟨1, 1, 1⟩, ⟨0, 0, 0⟩, 1⟩ ⟨⟨0, 0, 0⟩, ⟨0, 0, -1⟩⟩)) :=
  (sphere_inside_hit_far_root Real.sqrt isSqrt_real ⟨⟨1, 1, 1⟩, ⟨0, 0, 0⟩, 1⟩
    ⟨⟨0, 0, 0⟩, ⟨0, 0, -1⟩⟩ 0 (by norm_num) (by norm_num [vec3.length, dot])
    (by norm_num [vec3.length, dot])
    (by norm_num [Sphere.d2, Sphere.r2, Sphere.tca, dot, EPS])).1

/-- C7 (counterexample): the sphere of centre (0, 0, 1 - 1e-7) and radius 1 and the ray from
the origin with the unit direction (0,0,-1): the origin is at distance 1 - 1e-7 < 1 from the
centre, strictly inside, but the far root t1 = 1e-7 is below EPS and the call returns
false. -/
theorem sphere_inside_no_hit :
    (0 : ℝ) < 1 ∧
    vec3.length Real.sqrt (⟨0, 0, -1⟩ : vec3 ℝ) = 1 ∧
    vec3.length Real.sqrt ((⟨0, 0, 0⟩ : vec3 ℝ) - ⟨0, 0, 9999999 / 10000000⟩) < 1 ∧
    (Sphere.intersect Real.sqrt ⟨⟨1, 1, 1⟩, ⟨0, 0, 9999999 / 10000000⟩, 1⟩
        ⟨⟨0, 0, 0⟩, ⟨0, 0, -1⟩⟩ 0).1 = false := by
  have hl : Real.sqrt (99999980000001 / 100000000000000) = 9999999 / 10000000 :=
    real_sqrt_eq (by norm_num) (by norm_num)
  have ht : Sphere.tca ⟨⟨1, 1, 1⟩, ⟨0, 0, 9999999 / 10000000⟩, 1⟩
      (⟨⟨0, 0, 0⟩, ⟨0, 0, -1⟩⟩ : Ray ℝ) = -(9999999 / 10000000) := by
    norm_num [Sphere.tca, dot]
  have hd : Sphere.d2 ⟨⟨1, 1, 1⟩, ⟨0, 0, 9999999 / 10000000⟩, 1⟩
      (⟨⟨0, 0, 0⟩, ⟨0, 0, -1⟩⟩ : Ray ℝ) = 0 := by
    norm_num [Sphere.d2, Sphere.tca, dot]
  have hr : Sphere.r2 (⟨⟨1, 1, 1⟩, ⟨0, 0, 9999999 / 10000000⟩, 1⟩ : Sphere ℝ) = 1 := by
    norm_num [Sphere.r2]
  refine ⟨by norm_num, by norm_num [vec3.length, dot], ?_, ?_⟩
  · norm_num [vec3.length, dot, hl]
  · rw [Sphere.intersect_eq, ht, hd, hr]
    norm_num [EPS]

/-- C8 (witness): the sphere of centre (0,1,-1) and radius 1 and the ray from the origin with
direction (0,0,-1), tangent at t = tca = 1. -/
theorem sphere_tangent_hit_witness :
    Sphere.intersect Real.sqrt ⟨⟨1, 1, 1⟩, ⟨0, 1, -1⟩, 1⟩ ⟨⟨0, 0, 0⟩, ⟨0, 0, -1⟩⟩ 0
      = (true, Sphere.tca ⟨⟨1, 1, 1⟩, ⟨0, 1, -1⟩, 1⟩ ⟨⟨0, 0, 0⟩, ⟨0, 0, -1⟩⟩) :=
  (sphere_tangent_hit Real.sqrt isSqrt_real ⟨⟨1, 1, 1⟩, ⟨0, 1, -1⟩, 1⟩
    ⟨⟨0, 0, 0⟩, ⟨0, 0, -1⟩⟩ 0 (by norm_num [vec3.length, dot])
    (by norm_num [Sphere.d2, Sphere.r2, Sphere.tca, dot])
    (by norm_num [Sphere.tca, dot, EPS])).1

/-- C8 (counterexample): the sphere of centre (0,1,1) and radius 1 and the ray from the origin
with the unit direction (0,0,-1): the line is tangent to the sphere (d2 = r2 = 1), but the
tangent point is behind the origin (tca = -1) and the call returns false. -/
theorem sphere_tangent_behind_no_hit :
    vec3.length Real.sqrt (⟨0, 0, -1⟩ : vec3 ℝ) = 1 ∧
    Sphere.d2 ⟨⟨1, 1, 1⟩, ⟨0, 1, 1⟩, 1⟩ ⟨⟨0, 0, 0⟩, ⟨0, 0, -1⟩⟩
      = Sphere.r2 (⟨⟨1, 1, 1⟩, ⟨0, 1, 1⟩, 1⟩ : Sphere ℝ) ∧
    (Sphere.intersect Real.sqrt ⟨⟨1, 1, 1⟩, ⟨0, 1, 1⟩, 1⟩ ⟨⟨0, 0, 0⟩, ⟨0, 0, -1⟩⟩ 0).1
      = false := by
  refine ⟨by norm_num [vec3.length, dot],
    by norm_num [Sphere.d2, Sphere.r2, Sphere.tca, dot], ?_⟩
  simp only [Sphere.intersect, signum, dot, EPS, vec3.sub_x, vec3.sub_y, vec3.sub_z]
  norm_num

/-- C9 (witness): the sphere of centre (0,0,-5) and radius 1 is hit at t = 4 by the ray from
the origin with direction (0,0,-1); the point at parameter 1 is not on the sphere. -/
theorem sphere_hit_is_smallest_witness :
    vec3.length Real.sqrt
      (Ray.point_at_parameter ⟨⟨0, 0, 0⟩, ⟨0, 0, -1⟩⟩ (1 : ℝ) - ⟨0, 0, -5⟩) ≠ 1 := by
  have hS : Sphere.intersect Real.sqrt ⟨⟨1, 1, 1⟩, ⟨0, 0, -5⟩, 1⟩
      ⟨⟨0, 0, 0⟩, ⟨0, 0, -1⟩⟩ 0 = (true, 4) := by
    simp only [Sphere.intersect, signum, dot, EPS, vec3.sub_x, vec3.sub_y, vec3.sub_z]
    norm_num
  exact sphere_hit_is_smallest Real.sqrt isSqrt_real ⟨⟨1, 1, 1⟩, ⟨0, 0, -5⟩, 1⟩
    ⟨⟨0, 0, 0⟩, ⟨0, 0, -1⟩⟩ 0 (by norm_num [vec3.length, dot]) (by rw [hS])
    1 (by norm_num [EPS]) (by rw [hS]; norm_num)

/-! ## Plane -/

section PlaneIntersect

variable {F : Type} [LinearOrderedField F]

/-- C10: with denom = dot(n, ray.direction), `Plane.intersect` returns false (leaving `t`
untouched) when |denom| < EPS, in particular when denom = 0; otherwise it sets
t = dot(n, pp - ray.origin) / denom and returns true if and only if t > EPS. -/
theorem plane_intersect_spec (pl : Plane F) (ray : Ray F) (t : F) :
    (|dot pl.normal ray.direction| < EPS → pl.intersect ray t = (false, t)) ∧
    (dot pl.normal ray.direction = 0 → pl.intersect ray t = (false, t)) ∧
    (¬ |dot pl.normal ray.direction| < EPS →
      (pl.intersect ray t).2
          = dot pl.normal (pl.pp - ray.origin) / dot pl.normal ray.direction ∧
      ((pl.intersect ray t).1 = true
          ↔ dot pl.normal (pl.pp - ray.origin) / dot pl.normal ray.direction > EPS)) := by
  refine ⟨fun h => ?_, fun h => ?_, fun h => ?_⟩
  · unfold Plane.intersect
    simp only [if_pos h]
  · have h0 : |dot pl.normal ray.direction| < EPS := by
      rw [h, abs_zero]; exact EPS_pos
    unfold Plane.intersect
    simp only [if_pos h0]
  · unfold Plane.intersect
    simp only [if_neg h, decide_eq_true_eq, and_self]

end PlaneIntersect

/-- C10 (witness): the plane through (0,0,-5) with normal (0,0,1) is hit at t = 5 by the ray
from the origin with direction (0,0,-1), and is not hit by the ray with direction (1,0,0),
which is parallel to it. -/
theorem plane_intersect_spec_witness :
    ((Plane.intersect ⟨⟨1, 1, 1⟩, ⟨0, 0, -5⟩, ⟨0, 0, 1⟩⟩ ⟨⟨0, 0, 0⟩, ⟨0, 0, -1⟩⟩ (0 : ℝ)).2
        = dot (⟨0, 0, 1⟩ : vec3 ℝ) (⟨0, 0, -5⟩ - ⟨0, 0, 0⟩) / dot (⟨0, 0, 1⟩ : vec3 ℝ) ⟨0, 0, -1⟩ ∧
      (Plane.intersect ⟨⟨1, 1, 1⟩, ⟨0, 0, -5⟩, ⟨0, 0, 1⟩⟩ ⟨⟨0, 0, 0⟩, ⟨0, 0, -1⟩⟩ (0 : ℝ)).1
        = true) ∧
    Plane.intersect ⟨⟨1, 1, 1⟩, ⟨0, 0, -5⟩, ⟨0, 0, 1⟩⟩ ⟨⟨0, 0, 0⟩, ⟨1, 0, 0⟩⟩ (0 : ℝ)
      = (false, 0) := by
  have h1 := (plane_intersect_spec (⟨⟨1, 1, 1⟩, ⟨0, 0, -5⟩, ⟨0, 0, 1⟩⟩ : Plane ℝ)
    ⟨⟨0, 0, 0⟩, ⟨0, 0, -1⟩⟩ 0).2.2 (by norm_num [dot, EPS])
  have h2 := (plane_intersect_spec (⟨⟨1, 1, 1⟩, ⟨0, 0, -5⟩, ⟨0, 0, 1⟩⟩ : Plane ℝ)
    ⟨⟨0, 0, 0⟩, ⟨1, 0, 0⟩⟩ 0).1 (by norm_num [dot, EPS])
  exact ⟨⟨h1.1, h1.2.mpr (by norm_num [dot, EPS])⟩, h2⟩

/-! ## Plane and triangle: the hit point lies on the plane -/

section PlaneRoundTrip

variable {F : Type} [LinearOrderedField F]

/-- C11: for a plane built from a normal other than zero and any ray, the point of a hit
reported by `Plane.intersect` satisfies dot(normal, point - pp) = 0, for the stored unit
normal and for the normal given to the constructor; for a non-degenerate triangle, a hit
reported by `Triangle.intersect` is a hit of its plane with the same t, and the hit point
lies in the plane through A, B, C. -/
theorem plane_and_triangle_hit_point_on_plane (sqrt : F → F) (hs : IsSqrt sqrt)
    (color pp normal a b c : vec3 F) (ray : Ray F) (t : F)
    (hn : normal ≠ ⟨0, 0, 0⟩) (hnd : cross (b - a) (c - a) ≠ ⟨0, 0, 0⟩) :
    (((Plane.new sqrt color pp normal).intersect ray t).1 = true →
      dot (Plane.new sqrt color pp normal).normal
          (ray.point_at_parameter ((Plane.new sqrt color pp normal).intersect ray t).2 - pp) = 0 ∧
      dot normal
          (ray.point_at_parameter ((Plane.new sqrt color pp normal).intersect ray t).2 - pp)
        = 0) ∧
    (((Triangle.new sqrt color a b c).intersect ray t).1 = true →
      ((Triangle.new sqrt color a b c).plane.intersect ray t).1 = true ∧
      ((Triangle.new sqrt color a b c).intersect ray t).2
        = ((Triangle.new sqrt color a b c).plane.intersect ray t).2 ∧
      dot (cross (b - a) (c - a))
          (ray.point_at_parameter ((Triangle.new sqrt color a b c).intersect ray t).2 - a)
        = 0) := by
  -- the equation for the normal given to the constructor follows from the stored one
  have key : ∀ (q n x : vec3 F), n ≠ ⟨0, 0, 0⟩ →
      dot (Plane.new sqrt color q n).normal x = 0 → dot n x = 0 := by
    intro q n x hn0 h0
    obtain ⟨hpos, _⟩ := hs.length_pos hn0
    have h1 : dot (Plane.new sqrt color q n).normal x = dot n x / vec3.length sqrt n := by
      unfold Plane.new unit_vector
      exact dot_divs_left n x _
    rw [h1, div_eq_zero_iff] at h0
    rcases h0 with h0 | h0
    · exact h0
    · exact absurd h0 (ne_of_gt hpos)
  constructor
  · intro hhit
    have h := Plane.hit_point_on_plane (Plane.new sqrt color pp normal) ray t hhit
    exact ⟨h, key pp normal _ hn h⟩
  · intro hhit
    obtain ⟨hp, ht⟩ := Triangle.intersect_hit_plane (Triangle.new sqrt color a b c) ray t hhit
    refine ⟨hp, ht, ?_⟩
    rw [ht]
    have h := Plane.hit_point_on_plane (Triangle.new sqrt color a b c).plane ray t hp
    exact key a (cross (b - a) (c - a)) _ hnd h

end PlaneRoundTrip

/-- C11 (witness): the plane through (0,0,-5) built from the normal (0,0,2) and the triangle
(0,0,0), (2,0,0), (0,2,0) are both hit by the ray from (1/2, 1/2, 1) with direction
(0,0,-1). -/
theorem plane_and_triangle_hit_point_on_plane_witness :
    dot (⟨0, 0, 2⟩ : vec3 ℝ)
      (Ray.point_at_parameter ⟨⟨1 / 2, 1 / 2, 1⟩, ⟨0, 0, -1⟩⟩
        ((Plane.new Real.sqrt ⟨1, 1, 1⟩ ⟨0, 0, -5⟩ ⟨0, 0, 2⟩).intersect
          ⟨⟨1 / 2, 1 / 2, 1⟩, ⟨0, 0, -1⟩⟩ 0).2 - ⟨0, 0, -5⟩) = 0 ∧
    dot (cross ((⟨2, 0, 0⟩ : vec3 ℝ) - ⟨0, 0, 0⟩) (⟨0, 2, 0⟩ - ⟨0, 0, 0⟩))
      (Ray.point_at_parameter ⟨⟨1 / 2, 1 / 2, 1⟩, ⟨0, 0, -1⟩⟩
        ((Triangle.new Real.sqrt ⟨1, 1, 1⟩ ⟨0, 0, 0⟩ ⟨2, 0, 0⟩ ⟨0, 2, 0⟩).intersect
          ⟨⟨1 / 2, 1 / 2, 1⟩, ⟨0, 0, -1⟩⟩ 0).2 - ⟨0, 0, 0⟩) = 0 := by
  have h16 : Real.sqrt 16 = 4 := real_sqrt_eq (by norm_num) (by norm_num)
  have h4 : Real.sqrt 4 = 2 := real_sqrt_eq (by norm_num) (by norm_num)
  have hP : ((Plane.new Real.sqrt ⟨1, 1, 1⟩ ⟨0, 0, -5⟩ ⟨0, 0, 2⟩).intersect
      ⟨⟨1 / 2, 1 / 2, 1⟩, ⟨0, 0, -1⟩⟩ 0).1 = true := by
    simp only [Plane.new, Plane.intersect, unit_vector, vec3.length, dot,
      EPS, vec3.sub_x, vec3.sub_y, vec3.sub_z, vec3.divs_x, vec3.divs_y, vec3.divs_z]
    norm_num [h4]
  have hT : ((Triangle.new Real.sqrt ⟨1, 1, 1⟩ ⟨0, 0, 0⟩ ⟨2, 0, 0⟩ ⟨0, 2, 0⟩).intersect
      ⟨⟨1 / 2, 1 / 2, 1⟩, ⟨0, 0, -1⟩⟩ 0).1 = true := by
    simp only [Triangle.intersect, Triangle.new, Plane.new, Plane.intersect, unit_vector,
      vec3.length, dot, cross, EPS, Ray.point_at_parameter, vec3.sub_x, vec3.sub_y, vec3.sub_z,
      vec3.divs_x, vec3.divs_y, vec3.divs_z, vec3.add_x, vec3.add_y, vec3.add_z,
      vec3.smul_x, vec3.smul_y, vec3.smul_z, vec3.muls_x, vec3.muls_y, vec3.muls_z]
    norm_num [h16, h4]
  have h := plane_and_triangle_hit_point_on_plane Real.sqrt isSqrt_real ⟨1, 1, 1⟩ ⟨0, 0, -5⟩
    ⟨0, 0, 2⟩ ⟨0, 0, 0⟩ ⟨2, 0, 0⟩ ⟨0, 2, 0⟩ ⟨⟨1 / 2, 1 / 2, 1⟩, ⟨0, 0, -1⟩⟩ 0
    (by simp [vec3.ext_iff3]) (by simp [cross, vec3.ext_iff3])
  exact ⟨(h.1 hP).2, (h.2 hT).2.2⟩

/-! ## Plane: the stored normal -/

section PlaneNormal

variable {F : Type} [LinearOrderedField F]

/-- C12: for a plane constructed from a point and a normal other than zero, the stored
normal is the given normal divided by its length and has length exactly 1;
`Plane.getNormal` returns the stored normal for every point; and `applyMatrix` returns
the plane as it was, so the stored normal stays the same. -/
theorem plane_normal_unit (sqrt : F → F) (hs : IsSqrt sqrt) (color pp normal : vec3 F)
    (hn : normal ≠ ⟨0, 0, 0⟩) :
    (Plane.new sqrt color pp normal).normal = normal / vec3.length sqrt normal ∧
    vec3.length sqrt (Plane.new sqrt color pp normal).normal = 1 ∧
    (∀ point : vec3 F,
      (Plane.new sqrt color pp normal).getNormal point
        = (Plane.new sqrt color pp normal).normal) ∧
    (∀ (M : Type) (matrix : M),
      (Plane.new sqrt color pp normal).applyMatrix matrix = Plane.new sqrt color pp normal ∧
      vec3.length sqrt ((Plane.new sqrt color pp normal).applyMatrix matrix).normal = 1) := by
  obtain ⟨hpos, hsq⟩ := hs.length_pos hn
  have hlen : vec3.length sqrt (Plane.new sqrt color pp normal).normal = 1 := by
    have h1 : dot (normal / vec3.length sqrt normal) (normal / vec3.length sqrt normal)
        = 1 * 1 := by
      rw [dot_divs_left, dot_comm, dot_divs_left, ← hsq]
      field_simp
    unfold Plane.new unit_vector
    simp only
    unfold vec3.length at h1 ⊢
    rw [h1]
    exact hs.sqrt_mul_self zero_le_one
  refine ⟨rfl, hlen, fun _ => rfl, fun M matrix => ⟨rfl, ?_⟩⟩
  exact hlen

end PlaneNormal

/-- C12 (witness): the plane through (0,0,-5) built from the normal (0,0,2) stores a normal of
length 1. -/
theorem plane_normal_unit_witness :
    vec3.length Real.sqrt (Plane.new Real.sqrt ⟨1, 1, 1⟩ ⟨0, 0, -5⟩ ⟨0, 0, 2⟩).normal = 1 :=
  (plane_normal_unit Real.sqrt isSqrt_real ⟨1, 1, 1⟩ ⟨0, 0, -5⟩ ⟨0, 0, 2⟩
    (by simp [vec3.ext_iff3])).2.1

/-! ## Triangle: the two stored edge vectors -/

section TriangleFrame

variable {F : Type} [LinearOrderedField F]

/-- C13 (amended): for a non-degenerate triangle A, B, C the two stored vectors edgeVetorAB and
edgeVetorAC each have length 1 and are orthogonal to plane.normal; edgeVetorAB is orthogonal
to the edge C - A and edgeVetorAC to the edge B - A; and they are orthogonal to each other
exactly when the edges B - A and C - A are. -/
theorem triangle_edge_vectors (sqrt : F → F) (hs : IsSqrt sqrt) (color a b c : vec3 F)
    (hnd : cross (b - a) (c - a) ≠ ⟨0, 0, 0⟩) :
    vec3.length sqrt (Triangle.new sqrt color a b c).edgeVetorAB = 1 ∧
    vec3.length sqrt (Triangle.new sqrt color a b c).edgeVetorAC = 1 ∧
    dot (Triangle.new sqrt color a b c).edgeVetorAB
      (Triangle.new sqrt color a b c).plane.normal = 0 ∧
    dot (Triangle.new sqrt color a b c).edgeVetorAC
      (Triangle.new sqrt color a b c).plane.normal = 0 ∧
    dot (Triangle.new sqrt color a b c).edgeVetorAB (c - a) = 0 ∧
    dot (Triangle.new sqrt color a b c).edgeVetorAC (b - a) = 0 ∧
    (dot (Triangle.new sqrt color a b c).edgeVetorAB
        (Triangle.new sqrt color a b c).edgeVetorAC = 0 ↔ dot (b - a) (c - a) = 0) := by
  obtain ⟨hu, hv⟩ := dot_self_pos_of_cross_ne hnd
  obtain ⟨hw, hw'⟩ := perp_dot_self_pos hnd
  have hn := dot_self_pos hnd
  obtain ⟨hL, _⟩ := hs.sqrt_pos hw
  obtain ⟨hL', _⟩ := hs.sqrt_pos hw'
  refine ⟨hs.length_unit hw, hs.length_unit hw', ?_, ?_, ?_, ?_, ?_⟩
  · show dot (_ / _) (cross (b - a) (c - a) / _) = 0
    rw [dot_divs_left, dot_comm, dot_divs_left, dot_comm, (perp_dot_cross _ _).1]
    simp
  · show dot (_ / _) (cross (b - a) (c - a) / _) = 0
    rw [dot_divs_left, dot_comm, dot_divs_left, dot_comm, (perp_dot_cross _ _).2]
    simp
  · show dot (_ / _) (c - a) = 0
    rw [dot_divs_left, perp_dot_right _ _ hv]
    simp
  · show dot (_ / _) (b - a) = 0
    rw [dot_divs_left, perp_dot_right _ _ hu]
    simp
  · show dot (_ / _) (_ / _) = 0 ↔ _
    rw [dot_divs_left, dot_comm, dot_divs_left, dot_comm, perp_dot_perp _ _ hu hv]
    have hpos : 0 < dot (cross (b - a) (c - a)) (cross (b - a) (c - a))
        / (dot (b - a) (b - a) * dot (c - a) (c - a)) := div_pos hn (mul_pos hu hv)
    unfold vec3.length
    constructor
    · intro h
      rw [div_eq_zero_iff] at h
      rcases h with h | h
      · rw [div_eq_zero_iff] at h
        rcases h with h | h
        · rcases mul_eq_zero.mp h with h | h
          · linarith
          · exact h
        · linarith
      · linarith
    · intro h
      rw [h]
      simp

end TriangleFrame

/-- C13 (witness): the triangle (0,0,0), (2,0,0), (0,2,0). -/
theorem triangle_edge_vectors_witness :
    vec3.length Real.sqrt
      (Triangle.new Real.sqrt ⟨1, 1, 1⟩ ⟨0, 0, 0⟩ ⟨2, 0, 0⟩ ⟨0, 2, 0⟩).edgeVetorAB = 1 ∧
    vec3.length Real.sqrt
      (Triangle.new Real.sqrt ⟨1, 1, 1⟩ ⟨0, 0, 0⟩ ⟨2, 0, 0⟩ ⟨0, 2, 0⟩).edgeVetorAC = 1 :=
  ⟨(triangle_edge_vectors Real.sqrt isSqrt_real ⟨1, 1, 1⟩ ⟨0, 0, 0⟩ ⟨2, 0, 0⟩ ⟨0, 2, 0⟩
      (by simp [cross, vec3.ext_iff3])).1,
    (triangle_edge_vectors Real.sqrt isSqrt_real ⟨1, 1, 1⟩ ⟨0, 0, 0⟩ ⟨2, 0, 0⟩ ⟨0, 2, 0⟩
      (by simp [cross, vec3.ext_iff3])).2.1⟩

/-- C13 (counterexample): for the non-degenerate triangle A = (0,0,0), B = (1,0,0),
C = (3,4,0) the constructor stores edgeVetorAB = (4/5, -3/5, 0) and edgeVetorAC = (0, 1, 0),
whose dot product is -3/5, not 0. -/
theorem triangle_edge_vectors_not_orthogonal :
    cross ((⟨1, 0, 0⟩ : vec3 ℝ) - ⟨0, 0, 0⟩) (⟨3, 4, 0⟩ - ⟨0, 0, 0⟩) ≠ ⟨0, 0, 0⟩ ∧
    (Triangle.new Real.sqrt ⟨1, 1, 1⟩ ⟨0, 0, 0⟩ ⟨1, 0, 0⟩ ⟨3, 4, 0⟩).edgeVetorAB
      = ⟨4 / 5, -(3 / 5), 0⟩ ∧
    (Triangle.new Real.sqrt ⟨1, 1, 1⟩ ⟨0, 0, 0⟩ ⟨1, 0, 0⟩ ⟨3, 4, 0⟩).edgeVetorAC
      = ⟨0, 1, 0⟩ ∧
    dot (Triangle.new Real.sqrt ⟨1, 1, 1⟩ ⟨0, 0, 0⟩ ⟨1, 0, 0⟩ ⟨3, 4, 0⟩).edgeVetorAB
      (Triangle.new Real.sqrt ⟨1, 1, 1⟩ ⟨0, 0, 0⟩ ⟨1, 0, 0⟩ ⟨3, 4, 0⟩).edgeVetorAC ≠ 0 := by
  have h1 : Real.sqrt (16 / 25) = 4 / 5 := real_sqrt_eq (by norm_num) (by norm_num)
  have h2 : Real.sqrt 16 = 4 := real_sqrt_eq (by norm_num) (by norm_num)
  have hAB : (Triangle.new Real.sqrt ⟨1, 1, 1⟩ ⟨0, 0, 0⟩ ⟨1, 0, 0⟩ ⟨3, 4, 0⟩).edgeVetorAB
      = ⟨4 / 5, -(3 / 5), 0⟩ := by
    simp only [Triangle.new, vec3.length, dot, vec3.ext_iff3, vec3.sub_x, vec3.sub_y,
      vec3.sub_z, vec3.divs_x, vec3.divs_y, vec3.divs_z, vec3.muls_x, vec3.muls_y, vec3.muls_z]
    norm_num [h1]
  have hAC : (Triangle.new Real.sqrt ⟨1, 1, 1⟩ ⟨0, 0, 0⟩ ⟨1, 0, 0⟩ ⟨3, 4, 0⟩).edgeVetorAC
      = ⟨0, 1, 0⟩ := by
    simp only [Triangle.new, vec3.length, dot, vec3.ext_iff3, vec3.sub_x, vec3.sub_y,
      vec3.sub_z, vec3.divs_x, vec3.divs_y, vec3.divs_z, vec3.muls_x, vec3.muls_y, vec3.muls_z]
    norm_num [h2]
  refine ⟨by simp [cross, vec3.ext_iff3], hAB, hAC, ?_⟩
  rw [hAB, hAC]
  norm_num [dot]

/-! ## applyMatrix -/

section ApplyMatrix

variable {F : Type} [LinearOrderedField F]

/-- C14: `Sphere.applyMatrix` replaces the centre by matrix * centre and leaves the radius and
the colour as they were; `applyMatrix` on a plane or a triangle returns it with every field
unchanged, so `intersect` gives the same result before and after. -/
theorem applyMatrix_frame {M : Type} (mul : M → vec3 F → vec3 F) (s : Sphere F)
    (pl : Plane F) (tr : Triangle F) (matrix : M) (ray : Ray F) (t : F) :
    (s.applyMatrix mul matrix).center = mul matrix s.center ∧
    (s.applyMatrix mul matrix).radius = s.radius ∧
    (s.applyMatrix mul matrix).color = s.color ∧
    pl.applyMatrix matrix = pl ∧
    tr.applyMatrix matrix = tr ∧
    (pl.applyMatrix matrix).intersect ray t = pl.intersect ray t ∧
    (tr.applyMatrix matrix).intersect ray t = tr.intersect ray t :=
  ⟨rfl, rfl, rfl, rfl, rfl, rfl, rfl⟩

end ApplyMatrix

/-! ## The examples of the specification and `signum` -/

section Examples

variable {F : Type} [LinearOrderedField F]

/-- C15: the sphere of centre (0,0,-5) and radius 1 is hit at t = 4 by the ray from the origin
with direction (0,0,-1), and is not hit by the ray from the origin with direction
(0,1,0). -/
theorem sphere_example (sqrt : F → F) (hs : IsSqrt sqrt) (color : vec3 F) (t : F) :
    Sphere.intersect sqrt ⟨color, ⟨0, 0, -5⟩, 1⟩ ⟨⟨0, 0, 0⟩, ⟨0, 0, -1⟩⟩ t = (true, 4) ∧
    Sphere.intersect sqrt ⟨color, ⟨0, 0, -5⟩, 1⟩ ⟨⟨0, 0, 0⟩, ⟨0, 1, 0⟩⟩ t = (false, t) := by
  have h1 : sqrt 1 = 1 := by simpa using hs.sqrt_mul_self (zero_le_one (α := F))
  constructor
  · rw [Sphere.intersect_eq]
    have ht : Sphere.tca ⟨color, ⟨0, 0, -5⟩, 1⟩ (⟨⟨0, 0, 0⟩, ⟨0, 0, -1⟩⟩ : Ray F) = 5 := by
      norm_num [Sphere.tca, dot]
    have hd : Sphere.d2 ⟨color, ⟨0, 0, -5⟩, 1⟩ (⟨⟨0, 0, 0⟩, ⟨0, 0, -1⟩⟩ : Ray F) = 0 := by
      norm_num [Sphere.d2, Sphere.tca, dot]
    have hr : Sphere.r2 (⟨color, ⟨0, 0, -5⟩, 1⟩ : Sphere F) = 1 := by
      norm_num [Sphere.r2]
    rw [ht, hd, hr, sub_zero, h1]
    norm_num [EPS]
  · rw [Sphere.intersect_eq,
      if_pos (by norm_num [Sphere.d2, Sphere.r2, Sphere.tca, dot, EPS])]

/-- C17: `signum(value)` is 0 exactly when |value| < EPS, -1 exactly when value ≤ -EPS and +1
exactly when value ≥ EPS; it is always one of -1, 0, +1; and signum(-value) = -signum(value). -/
theorem signum_spec (value : F) :
    (signum value = 0 ↔ |value| < EPS) ∧
    (signum value = -1 ↔ value ≤ -EPS) ∧
    (signum value = 1 ↔ EPS ≤ value) ∧
    (signum value = -1 ∨ signum value = 0 ∨ signum value = 1) ∧
    signum (-value) = -signum value := by
  have hE : (0 : F) < EPS := EPS_pos
  have key : ∀ x : F, (|x| < EPS → signum x = 0) ∧ (x ≤ -EPS → signum x = -1) ∧
      (EPS ≤ x → signum x = 1) := by
    intro x
    refine ⟨fun h => ?_, fun h => ?_, fun h => ?_⟩
    · unfold signum; rw [if_pos h]
    · have h1 : ¬ |x| < EPS := by
        rw [abs_lt]; intro h2; linarith [h2.1]
      unfold signum; rw [if_neg h1, if_pos (by linarith)]
    · have h1 : ¬ |x| < EPS := by
        rw [abs_lt]; intro h2; linarith [h2.2]
      unfold signum; rw [if_neg h1, if_neg (by linarith)]
  have tri : ∀ x : F, |x| < EPS ∨ x ≤ -EPS ∨ EPS ≤ x := by
    intro x
    by_cases h : |x| < EPS
    · exact Or.inl h
    · rw [abs_lt, not_and_or] at h
      rcases h with h | h
      · exact Or.inr (Or.inl (le_of_not_lt h))
      · exact Or.inr (Or.inr (le_of_not_lt h))
  obtain ⟨k0, km, kp⟩ := key value
  obtain ⟨n0, nm, np⟩ := key (-value)
  rcases tri value with h | h | h
  · have hs0 := k0 h
    have hn : |(-value)| < EPS := by rwa [abs_neg]
    refine ⟨⟨fun _ => h, fun _ => hs0⟩, ⟨fun h1 => ?_, fun h1 => ?_⟩, ⟨fun h1 => ?_, fun h1 => ?_⟩,
      Or.inr (Or.inl hs0), ?_⟩
    · rw [hs0] at h1; exact absurd h1 (by decide)
    · exact absurd (abs_lt.mp h).1 (by linarith)
    · rw [hs0] at h1; exact absurd h1 (by decide)
    · exact absurd (abs_lt.mp h).2 (by linarith)
    · rw [n0 hn, hs0, neg_zero]
  · have hsm := km h
    have hnot : ¬ |value| < EPS := by rw [abs_lt]; intro h2; linarith [h2.1]
    refine ⟨⟨fun h1 => ?_, fun h1 => absurd h1 hnot⟩, ⟨fun _ => h, fun _ => hsm⟩,
      ⟨fun h1 => ?_, fun h1 => ?_⟩, Or.inl hsm, ?_⟩
    · rw [hsm] at h1; exact absurd h1 (by decide)
    · rw [hsm] at h1; exact absurd h1 (by decide)
    · linarith
    · rw [np (by linarith), hsm]; rfl
  · have hsp := kp h
    have hnot : ¬ |value| < EPS := by rw [abs_lt]; intro h2; linarith [h2.2]
    refine ⟨⟨fun h1 => ?_, fun h1 => absurd h1 hnot⟩, ⟨fun h1 => ?_, fun h1 => ?_⟩,
      ⟨fun _ => h, fun _ => hsp⟩, Or.inr (Or.inr hsp), ?_⟩
    · rw [hsp] at h1; exact absurd h1 (by decide)
    · rw [hsp] at h1; exact absurd h1 (by decide)
    · linarith
    · rw [nm (by linarith), hsp]

end Examples

/-- C15 (witness): the example with the real square root and `t` initially 0. -/
theorem sphere_example_witness :
    Sphere.intersect Real.sqrt ⟨⟨1, 1, 1⟩, ⟨0, 0, -5⟩, 1⟩ ⟨⟨0, 0, 0⟩, ⟨0, 0, -1⟩⟩ 0
      = (true, 4) ∧
    Sphere.intersect Real.sqrt ⟨⟨1, 1, 1⟩, ⟨0, 0, -5⟩, 1⟩ ⟨⟨0, 0, 0⟩, ⟨0, 1, 0⟩⟩ 0
      = (false, 0) :=
  sphere_example Real.sqrt isSqrt_real ⟨1, 1, 1⟩ 0

/-! ## Sphere: the order of preference of the roots -/

section SpherePreference

variable {F : Type} [LinearOrderedField F]

/-- C18: for a sphere and a ray that the discriminant test does not reject, with
thc = sqrt(r2 - d2), t0 = tca - thc and t1 = tca + thc: the call is a hit with t = t0 when
t0 ≥ EPS, otherwise a hit with t = t1 when t1 ≥ EPS, otherwise not a hit; and when d2 ≤ r2 a
hit is reported if and only if t1 ≥ EPS. -/
theorem sphere_root_preference (sqrt : F → F) (hs : IsSqrt sqrt) (s : Sphere F)
    (ray : Ray F) (t : F)
    (hnr : ¬ signum (s.d2 ray - s.r2) > 0)
    (hdisc : s.d2 ray ≤ s.r2) :
    (EPS ≤ s.tca ray - sqrt (s.r2 - s.d2 ray) →
      s.intersect sqrt ray t = (true, s.tca ray - sqrt (s.r2 - s.d2 ray))) ∧
    (s.tca ray - sqrt (s.r2 - s.d2 ray) < EPS → EPS ≤ s.tca ray + sqrt (s.r2 - s.d2 ray) →
      s.intersect sqrt ray t = (true, s.tca ray + sqrt (s.r2 - s.d2 ray))) ∧
    (s.tca ray - sqrt (s.r2 - s.d2 ray) < EPS → s.tca ray + sqrt (s.r2 - s.d2 ray) < EPS →
      (s.intersect sqrt ray t).1 = false) ∧
    ((s.intersect sqrt ray t).1 = true ↔ EPS ≤ s.tca ray + sqrt (s.r2 - s.d2 ray)) := by
  have hrej : ¬ EPS ≤ s.d2 ray - s.r2 := fun h => hnr ((signum_pos_iff _).mpr h)
  obtain ⟨hq, _⟩ := hs (s.r2 - s.d2 ray) (by linarith)
  rw [Sphere.intersect_eq, if_neg hrej]
  refine ⟨fun h => ?_, fun h0 h1 => ?_, fun h0 h1 => ?_, ?_⟩
  · rw [if_neg (not_lt.mpr h)]
  · rw [if_pos h0, if_neg (not_lt.mpr h1)]
  · rw [if_pos h0, if_pos h1]
  · split_ifs with h0 h1
    · simp only [Bool.false_eq_true, false_iff, not_le]
      exact h1
    · simp only [true_iff]
      exact le_of_not_lt h1
    · simp only [true_iff]
      linarith [le_of_not_lt h0]

end SpherePreference

/-- C18 (witness): the sphere of centre (0,0,-5) and radius 1 and the ray from the origin with
direction (0,0,-1): t0 = 4 ≥ EPS and the call is a hit with t = t0. -/
theorem sphere_root_preference_witness :
    Sphere.intersect Real.sqrt ⟨⟨1, 1, 1⟩, ⟨0, 0, -5⟩, 1⟩ ⟨⟨0, 0, 0⟩, ⟨0, 0, -1⟩⟩ 0
      = (true, Sphere.tca ⟨⟨1, 1, 1⟩, ⟨0, 0, -5⟩, 1⟩ ⟨⟨0, 0, 0⟩, ⟨0, 0, -1⟩⟩
          - Real.sqrt (Sphere.r2 ⟨⟨1, 1, 1⟩, ⟨0, 0, -5⟩, 1⟩
              - Sphere.d2 ⟨⟨1, 1, 1⟩, ⟨0, 0, -5⟩, 1⟩ ⟨⟨0, 0, 0⟩, ⟨0, 0, -1⟩⟩)) :=
  (sphere_root_preference Real.sqrt isSqrt_real ⟨⟨1, 1, 1⟩, ⟨0, 0, -5⟩, 1⟩
    ⟨⟨0, 0, 0⟩, ⟨0, 0, -1⟩⟩ 0
    (by
      rw [signum_pos_iff]
      norm_num [Sphere.d2, Sphere.r2, Sphere.tca, dot, EPS])
    (by norm_num [Sphere.d2, Sphere.r2, Sphere.tca, dot])).1
    (by norm_num [Sphere.d2, Sphere.r2, Sphere.tca, dot, EPS])

/-! ## Triangle: the acceptance test -/

section TriangleTest

variable {F : Type} [LinearOrderedField F]

/-- C19: `Triangle.intersect` returns true if and only if the underlying `Plane.intersect`
returns true with parameter t and, for p = ray.point_at_parameter(t), ap = p - plane.pp,
beta = dot(ap, edgeVetorAB), gama = dot(ap, edgeVetorAC) and alpha = 1 - beta - gama, all
three of alpha, beta, gama are ≥ -EPS; a ray parallel to the plane (|denom| < EPS) or with
plane parameter ≤ EPS is never a hit of the triangle. -/
theorem triangle_intersect_iff (tr : Triangle F) (ray : Ray F) (t : F) :
    ((tr.intersect ray t).1 = true ↔
      (tr.plane.intersect ray t).1 = true ∧
      -EPS ≤ 1
          - dot (ray.point_at_parameter (tr.plane.intersect ray t).2 - tr.plane.pp)
              tr.edgeVetorAB
          - dot (ray.point_at_parameter (tr.plane.intersect ray t).2 - tr.plane.pp)
              tr.edgeVetorAC ∧
      -EPS ≤ dot (ray.point_at_parameter (tr.plane.intersect ray t).2 - tr.plane.pp)
          tr.edgeVetorAB ∧
      -EPS ≤ dot (ray.point_at_parameter (tr.plane.intersect ray t).2 - tr.plane.pp)
          tr.edgeVetorAC) ∧
    (|dot tr.plane.normal ray.direction| < EPS → (tr.intersect ray t).1 = false) ∧
    (dot tr.plane.normal (tr.plane.pp - ray.origin) / dot tr.plane.normal ray.direction ≤ EPS →
      (tr.intersect ray t).1 = false) := by
  have hiff := Triangle.intersect_true_iff tr ray t
  have hplane : (tr.plane.intersect ray t).1 = false → (tr.intersect ray t).1 = false := by
    intro hp
    by_contra hcon
    have : (tr.intersect ray t).1 = true := by simpa using hcon
    rw [(hiff.mp this).1] at hp
    exact absurd hp (by decide)
  refine ⟨hiff, fun h => hplane ?_, fun h => hplane ?_⟩
  · unfold Plane.intersect
    simp only [if_pos h]
  · unfold Plane.intersect
    simp only
    split_ifs with h1
    · rfl
    · simp only [decide_eq_false_iff_not, not_lt, gt_iff_lt]
      exact h

end TriangleTest

/-- C19 (witness): the triangle with plane z = 0, stored vectors (1,0,0) and (0,1,0), and the
ray from (1/4, 1/4, 1) with direction (0,0,-1) is a hit; the ray with direction (1,0,0),
parallel to the plane, is not. -/
theorem triangle_intersect_iff_witness :
    (Triangle.intersect ⟨⟨1, 1, 1⟩, ⟨⟨1, 1, 1⟩, ⟨0, 0, 0⟩, ⟨0, 0, 1⟩⟩, ⟨1, 0, 0⟩, ⟨0, 1, 0⟩⟩
        ⟨⟨1 / 4, 1 / 4, 1⟩, ⟨0, 0, -1⟩⟩ (0 : ℝ)).1 = true ∧
    (Triangle.intersect ⟨⟨1, 1, 1⟩, ⟨⟨1, 1, 1⟩, ⟨0, 0, 0⟩, ⟨0, 0, 1⟩⟩, ⟨1, 0, 0⟩, ⟨0, 1, 0⟩⟩
        ⟨⟨1 / 4, 1 / 4, 1⟩, ⟨1, 0, 0⟩⟩ (0 : ℝ)).1 = false := by
  have hP : Plane.intersect (⟨⟨1, 1, 1⟩, ⟨0, 0, 0⟩, ⟨0, 0, 1⟩⟩ : Plane ℝ)
      ⟨⟨1 / 4, 1 / 4, 1⟩, ⟨0, 0, -1⟩⟩ 0 = (true, 1) := by
    simp only [Plane.intersect, dot, EPS, vec3.sub_x, vec3.sub_y, vec3.sub_z]
    norm_num
  refine ⟨(triangle_intersect_iff _ _ _).1.mpr ?_,
    (triangle_intersect_iff _ _ _).2.1 (by norm_num [dot, EPS])⟩
  simp only [hP]
  norm_num [dot, EPS, Ray.point_at_parameter]

/-! ## Triangle: the example of the specification -/

section TriangleExample

variable {F : Type} [LinearOrderedField F]

/-- C16: for the triangle (1,0,0), (0,1,0), (0,0,1), the ray from the origin with direction
(1/3, 1/3, 1/3) is a hit with t = 1, and the ray from (2,2,2) with the same direction is not a
hit (its plane parameter is -5). -/
theorem triangle_example (sqrt : F → F) (hs : IsSqrt sqrt) (color : vec3 F) (t : F) :
    (Triangle.new sqrt color ⟨1, 0, 0⟩ ⟨0, 1, 0⟩ ⟨0, 0, 1⟩).intersect
        ⟨⟨0, 0, 0⟩, ⟨1 / 3, 1 / 3, 1 / 3⟩⟩ t = (true, 1) ∧
    (Triangle.new sqrt color ⟨1, 0, 0⟩ ⟨0, 1, 0⟩ ⟨0, 0, 1⟩).intersect
        ⟨⟨2, 2, 2⟩, ⟨1 / 3, 1 / 3, 1 / 3⟩⟩ t = (false, -5) := by
  have hE : (0 : F) < EPS := EPS_pos
  have hE1 : (EPS : F) < 1 / 2 := by unfold EPS; norm_num
  obtain ⟨h3p, h3s⟩ := hs.sqrt_pos (show (0 : F) < 3 by norm_num)
  obtain ⟨hLp, hLs⟩ := hs.sqrt_pos (show (0 : F) < 3 / 2 by norm_num)
  have h3lt : sqrt 3 < 2 := by nlinarith
  have hL1 : 1 < sqrt (3 / 2) := by nlinarith
  have haux : (1 : F) / sqrt 3 * (1 / 3) + 1 / sqrt 3 * (1 / 3) + 1 / sqrt 3 * (1 / 3)
      = 1 / sqrt 3 := by ring
  have hauxpos : (1 : F) / 2 < 1 / sqrt 3 := one_div_lt_one_div_of_lt h3p h3lt
  have hnabs : ¬ |(1 : F) / sqrt 3| < EPS := by
    rw [abs_of_pos (by positivity)]; linarith
  -- the plane is hit at t = 1 by the first ray, and met at t = -5 by the second
  have hP1 : Plane.intersect ⟨color, ⟨1, 0, 0⟩, ⟨1 / sqrt 3, 1 / sqrt 3, 1 / sqrt 3⟩⟩
      ⟨⟨0, 0, 0⟩, ⟨1 / 3, 1 / 3, 1 / 3⟩⟩ t = (true, 1) := by
    have hx : ((1 : F) / sqrt 3 * (1 - 0) + 1 / sqrt 3 * (0 - 0) + 1 / sqrt 3 * (0 - 0))
        / (1 / sqrt 3) = 1 := by
      field_simp
    simp only [Plane.intersect, dot, vec3.sub_x, vec3.sub_y, vec3.sub_z, haux]
    rw [if_neg hnabs, hx]
    simp only [gt_iff_lt, Prod.mk.injEq, decide_eq_true_eq, and_true]
    linarith
  have hP2 : Plane.intersect ⟨color, ⟨1, 0, 0⟩, ⟨1 / sqrt 3, 1 / sqrt 3, 1 / sqrt 3⟩⟩
      ⟨⟨2, 2, 2⟩, ⟨1 / 3, 1 / 3, 1 / 3⟩⟩ t = (false, -5) := by
    have hx : ((1 : F) / sqrt 3 * (1 - 2) + 1 / sqrt 3 * (0 - 2) + 1 / sqrt 3 * (0 - 2))
        / (1 / sqrt 3) = -5 := by
      field_simp
      ring
    simp only [Plane.intersect, dot, vec3.sub_x, vec3.sub_y, vec3.sub_z, haux]
    rw [if_neg hnabs, hx]
    simp only [gt_iff_lt, Prod.mk.injEq, decide_eq_false_iff_not, not_lt, and_true]
    linarith
  have hinv : (1 : F) / sqrt (3 / 2) < 1 := by
    rw [div_lt_one hLp]; exact hL1
  rw [Triangle.new_example]
  constructor
  · unfold Triangle.intersect
    simp only [hP1, Bool.not_true, Bool.false_eq_true, if_false]
    have hbeta : dot (Ray.point_at_parameter ⟨⟨0, 0, 0⟩, ⟨1 / 3, 1 / 3, 1 / 3⟩⟩ (1 : F)
        - ⟨1, 0, 0⟩) ⟨-(1 / 2) / sqrt (3 / 2), 1 / sqrt (3 / 2), -(1 / 2) / sqrt (3 / 2)⟩
        = 1 / 2 * (1 / sqrt (3 / 2)) := by
      simp only [dot, Ray.point_at_parameter, vec3.sub_x, vec3.sub_y, vec3.sub_z, vec3.add_x,
        vec3.add_y, vec3.add_z, vec3.smul_x, vec3.smul_y, vec3.smul_z]
      ring
    have hgama : dot (Ray.point_at_parameter ⟨⟨0, 0, 0⟩, ⟨1 / 3, 1 / 3, 1 / 3⟩⟩ (1 : F)
        - ⟨1, 0, 0⟩) ⟨-(1 / 2) / sqrt (3 / 2), -(1 / 2) / sqrt (3 / 2), 1 / sqrt (3 / 2)⟩
        = 1 / 2 * (1 / sqrt (3 / 2)) := by
      simp only [dot, Ray.point_at_parameter, vec3.sub_x, vec3.sub_y, vec3.sub_z, vec3.add_x,
        vec3.add_y, vec3.add_z, vec3.smul_x, vec3.smul_y, vec3.smul_z]
      ring
    have hpos : (0 : F) < 1 / sqrt (3 / 2) := by positivity
    rw [hbeta, hgama, if_neg]
    intro h
    rcases h with h | h | h <;> linarith
  · unfold Triangle.intersect
    simp only [hP2, Bool.not_false, if_true]

end TriangleExample

/-- C16 (witness): the example with the real square root and `t` initially 0. -/
theorem triangle_example_witness :
    (Triangle.new Real.sqrt ⟨1, 1, 1⟩ ⟨1, 0, 0⟩ ⟨0, 1, 0⟩ ⟨0, 0, 1⟩).intersect
        ⟨⟨0, 0, 0⟩, ⟨1 / 3, 1 / 3, 1 / 3⟩⟩ 0 = (true, 1) ∧
    (Triangle.new Real.sqrt ⟨1, 1, 1⟩ ⟨1, 0, 0⟩ ⟨0, 1, 0⟩ ⟨0, 0, 1⟩).intersect
        ⟨⟨2, 2, 2⟩, ⟨1 / 3, 1 / 3, 1 / 3⟩⟩ 0 = (false, -5) :=
  triangle_example Real.sqrt isSqrt_real ⟨1, 1, 1⟩ 0

/-! ## Triangle: what beta and gama measure -/

section TriangleDistances

variable {F : Type} [LinearOrderedField F]

/-- C20: for a non-degenerate triangle A, B, C, edgeVetorAB is orthogonal to the edge C - A and
edgeVetorAC to the edge B - A; for a point p of the plane of the triangle,
beta = dot(p - A, edgeVetorAB) is the signed distance of p from the line AC (its square is the
squared distance, and for p = A + β (B - A) + γ (C - A) it is β times the positive distance of
B from that line), and gama = dot(p - A, edgeVetorAC) is likewise the signed distance of p from
the line AB; and `Triangle.intersect` accepts exactly the plane hits with beta ≥ -EPS,
gama ≥ -EPS and beta + gama ≤ 1 + EPS. -/
theorem triangle_edge_vectors_measure_distances (sqrt : F → F) (hs : IsSqrt sqrt)
    (color a b c : vec3 F) (hnd : cross (b - a) (c - a) ≠ ⟨0, 0, 0⟩) :
    dot (Triangle.new sqrt color a b c).edgeVetorAB (c - a) = 0 ∧
    dot (Triangle.new sqrt color a b c).edgeVetorAC (b - a) = 0 ∧
    0 < vec3.length sqrt
      ((b - a) - (c - a) * (dot (b - a) (c - a) / dot (c - a) (c - a))) ∧
    0 < vec3.length sqrt
      ((c - a) - (b - a) * (dot (c - a) (b - a) / dot (b - a) (b - a))) ∧
    (∀ p : vec3 F, dot (cross (b - a) (c - a)) (p - a) = 0 →
      dot (p - a) (Triangle.new sqrt color a b c).edgeVetorAB
          * dot (p - a) (Triangle.new sqrt color a b c).edgeVetorAB
        = dot (p - a) (p - a) - dot (p - a) (c - a) * dot (p - a) (c - a) / dot (c - a) (c - a) ∧
      dot (p - a) (Triangle.new sqrt color a b c).edgeVetorAC
          * dot (p - a) (Triangle.new sqrt color a b c).edgeVetorAC
        = dot (p - a) (p - a)
          - dot (p - a) (b - a) * dot (p - a) (b - a) / dot (b - a) (b - a)) ∧
    (∀ (p : vec3 F) (β γ : F), p - a = β * (b - a) + γ * (c - a) →
      dot (p - a) (Triangle.new sqrt color a b c).edgeVetorAB
        = β * vec3.length sqrt
            ((b - a) - (c - a) * (dot (b - a) (c - a) / dot (c - a) (c - a))) ∧
      dot (p - a) (Triangle.new sqrt color a b c).edgeVetorAC
        = γ * vec3.length sqrt
            ((c - a) - (b - a) * (dot (c - a) (b - a) / dot (b - a) (b - a)))) ∧
    (∀ (ray : Ray F) (t : F),
      ((Triangle.new sqrt color a b c).intersect ray t).1 = true ↔
        ((Triangle.new sqrt color a b c).plane.intersect ray t).1 = true ∧
        -EPS ≤ dot (ray.point_at_parameter
              ((Triangle.new sqrt color a b c).plane.intersect ray t).2 - a)
            (Triangle.new sqrt color a b c).edgeVetorAB ∧
        -EPS ≤ dot (ray.point_at_parameter
              ((Triangle.new sqrt color a b c).plane.intersect ray t).2 - a)
            (Triangle.new sqrt color a b c).edgeVetorAC ∧
        dot (ray.point_at_parameter
              ((Triangle.new sqrt color a b c).plane.intersect ray t).2 - a)
            (Triangle.new sqrt color a b c).edgeVetorAB
          + dot (ray.point_at_parameter
              ((Triangle.new sqrt color a b c).plane.intersect ray t).2 - a)
            (Triangle.new sqrt color a b c).edgeVetorAC ≤ 1 + EPS) := by
  obtain ⟨hu, hv⟩ := dot_self_pos_of_cross_ne hnd
  obtain ⟨hw, hw'⟩ := perp_dot_self_pos hnd
  obtain ⟨hL, _⟩ := hs.sqrt_pos hw
  obtain ⟨hL', _⟩ := hs.sqrt_pos hw'
  have hnd' := cross_swap_ne hnd
  refine ⟨?_, ?_, hL, hL', fun p hp => ⟨?_, ?_⟩, fun p β γ hp => ⟨?_, ?_⟩, fun ray t => ?_⟩
  · show dot (_ / _) (c - a) = 0
    rw [dot_divs_left, perp_dot_right _ _ hv]
    simp
  · show dot (_ / _) (b - a) = 0
    rw [dot_divs_left, perp_dot_right _ _ hu]
    simp
  · exact perp_dist_sq hs (b - a) (c - a) (p - a) hnd hp
  · exact perp_dist_sq hs (c - a) (b - a) (p - a) hnd' (by rw [dot_cross_swap, hp, neg_zero])
  · exact perp_coord hs (b - a) (c - a) (p - a) β γ hnd hp
  · exact perp_coord hs (c - a) (b - a) (p - a) γ β hnd' (by rw [hp, vec3.add_comm3])
  · rw [Triangle.intersect_true_iff]
    show _ ∧ -EPS ≤ 1 - dot (_ - a) _ - dot (_ - a) _ ∧ -EPS ≤ dot (_ - a) _
      ∧ -EPS ≤ dot (_ - a) _ ↔ _
    constructor
    · rintro ⟨h1, h2, h3, h4⟩
      exact ⟨h1, h3, h4, by linarith⟩
    · rintro ⟨h1, h3, h4, h2⟩
      exact ⟨h1, by linarith, h3, h4⟩

end TriangleDistances

/-- C20 (witness): the triangle (0,0,0), (2,0,0), (0,2,0). -/
theorem triangle_edge_vectors_measure_distances_witness :
    dot (Triangle.new Real.sqrt ⟨1, 1, 1⟩ ⟨0, 0, 0⟩ ⟨2, 0, 0⟩ ⟨0, 2, 0⟩).edgeVetorAB
      ((⟨0, 2, 0⟩ : vec3 ℝ) - ⟨0, 0, 0⟩) = 0 ∧
    dot (Triangle.new Real.sqrt ⟨1, 1, 1⟩ ⟨0, 0, 0⟩ ⟨2, 0, 0⟩ ⟨0, 2, 0⟩).edgeVetorAC
      ((⟨2, 0, 0⟩ : vec3 ℝ) - ⟨0, 0, 0⟩) = 0 :=
  ⟨(triangle_edge_vectors_measure_distances Real.sqrt isSqrt_real ⟨1, 1, 1⟩ ⟨0, 0, 0⟩ ⟨2, 0, 0⟩
      ⟨0, 2, 0⟩ (by simp [cross, vec3.ext_iff3])).1,
    (triangle_edge_vectors_measure_distances Real.sqrt isSqrt_real ⟨1, 1, 1⟩ ⟨0, 0, 0⟩ ⟨2, 0, 0⟩
      ⟨0, 2, 0⟩ (by simp [cross, vec3.ext_iff3])).2.1⟩

end RayTracing
